import Mathlib

/-!
Rule reconciliation of the ALB ingress controller.

A shallow embedding of `pkg/alb/rule.go` and of the VPC lookup of
`pkg/util/aws/ec2.go`.

Conventions of the embedding.

* A Go pointer to a scalar (`*bool`, `*string`) is an `Option`; `nil` is `none`.
  `r.CurrentRule` and `r.DesiredRule` (`*elbv2.Rule`) are `Option ElbRule`.
* A Go slice is a `List`; a nil slice and an empty slice are both `[]`.
  Elements of slices of pointers (`[]*elbv2.Action`, `[]*elbv2.Rule`, ...) are
  taken to be non-nil.
* The structs handed in by the caller (`rOpts`, `rOpts.loadbalancer`, `l`,
  `l.CurrentListener`, `tg.CurrentTargetGroup`, `r.logger`) are non-nil.
* A dereference of a nil `IsDefault` or `Priority` and an index outside a
  slice are run-time panics: the functions return `Outcome.panic` together
  with the state reached at that point.
* Rules are values.  The one write through a shared pointer,
  `in.Actions[0].TargetGroupArn = ...` in `create`, where `in.Actions` is the
  slice of `r.DesiredRule`, is modelled as an update of
  `r.DesiredRule.Actions[0]`.  `Reconcile` reaches `create` only with
  `r.CurrentRule == nil`, so the alias made by `r.CurrentRule = r.DesiredRule`
  is never written through.
* The remote API is a pair of functions of the history of remote calls and of
  the input; every call and its response is appended to `World.calls`.
* `int64` arithmetic wraps (`wrap64`).
* Logger calls have no effect on the state and are left out; `rOpts.Eventf`
  appends to `World.events`.
-/

namespace Alb

/-! ## Data model -/

/-- An AWS error value (only its message is observed, through `err.Error()`). -/
structure Err where
  msg : String
  deriving DecidableEq, Repr

/-- The struct `elbv2.Action`; the field `Type` is written `Type_`. -/
structure Action where
  TargetGroupArn : Option String
  Type_ : Option String
  deriving DecidableEq, Repr

/-- The struct `elbv2.RuleCondition`. -/
structure RuleCondition where
  Field : Option String
  Values : List (Option String)
  deriving DecidableEq, Repr

/-- The struct `elbv2.Rule`. -/
structure ElbRule where
  Actions : List Action
  Conditions : List RuleCondition
  IsDefault : Option Bool
  Priority : Option String
  RuleArn : Option String
  deriving DecidableEq, Repr

/-- The struct `alb.Rule` (the logger is left out). -/
structure Rule where
  SvcName : String
  CurrentRule : Option ElbRule
  DesiredRule : Option ElbRule
  deleted : Bool
  deriving DecidableEq, Repr

/-- The struct `elbv2.TargetGroup`, reduced to the field `create` reads. -/
structure ElbTargetGroup where
  TargetGroupArn : Option String
  deriving DecidableEq, Repr

/-- The struct `alb.TargetGroup`, reduced to its service name and its current
AWS target group. -/
structure TargetGroup where
  SvcName : String
  CurrentTargetGroup : ElbTargetGroup
  deriving DecidableEq, Repr

/-- The struct `alb.LoadBalancer`, reduced to the fields `create` uses. -/
structure LoadBalancer where
  LastRulePriority : Int
  TargetGroups : List TargetGroup
  deriving DecidableEq, Repr

/-- The struct `elbv2.Listener`, reduced to its ARN. -/
structure ElbListener where
  ListenerArn : Option String
  deriving DecidableEq, Repr

/-- The struct `alb.Listener`, reduced to its current AWS listener. -/
structure Listener where
  CurrentListener : ElbListener
  deriving DecidableEq, Repr

/-- The struct `elbv2.CreateRuleInput`; `Priority` is `aws.Int64(...)`, never nil. -/
structure CreateRuleInput where
  Actions : List Action
  Conditions : List RuleCondition
  ListenerArn : Option String
  Priority : Int
  deriving DecidableEq, Repr

/-- The struct `elbv2.CreateRuleOutput`. -/
structure CreateRuleOutput where
  Rules : List ElbRule
  deriving DecidableEq, Repr

/-- The struct `elbv2.DeleteRuleInput`. -/
structure DeleteRuleInput where
  RuleArn : Option String
  deriving DecidableEq, Repr

/-- The result `(value, err)` of a remote call. -/
inductive Response (α : Type) where
  | ok (v : α)
  | err (e : Err)
  deriving DecidableEq, Repr

/-- One remote call with the response it got. -/
inductive Call where
  | createRule (inp : CreateRuleInput) (resp : Response CreateRuleOutput)
  | deleteRule (inp : DeleteRuleInput) (resp : Response Unit)
  deriving DecidableEq, Repr

/-- Severity of an event: `api.EventTypeNormal` or `api.EventTypeWarning`. -/
inductive EventType where
  | normal
  | warning
  deriving DecidableEq, Repr

/-- One `rOpts.Eventf(eventtype, reason, format, args...)`, with the arguments
rendered as strings. -/
structure Event where
  etype : EventType
  reason : String
  format : String
  args : List String
  deriving DecidableEq, Repr

/-- What a reconciliation can read and write besides the rule itself: the load
balancer of `rOpts`, the remote calls made so far and the events emitted so far. -/
structure World where
  lb : LoadBalancer
  calls : List Call
  events : List Event
  deriving DecidableEq, Repr

/-- The collaborators that are not part of `rule.go`: the ELBv2 client
`awsutil.ALBsvc`, whose answers may depend on every earlier call, and
`TargetGroups.LookupBySvc`. -/
structure Env where
  CreateRule : List Call → CreateRuleInput → Response CreateRuleOutput
  DeleteRule : List Call → DeleteRuleInput → Response Unit
  LookupBySvc : List TargetGroup → String → Int

/-- A Go run-time panic. -/
inductive Fault where
  | nilDereference
  | indexOutOfRange
  deriving DecidableEq, Repr

/-- How a Go function of type `func(...) error` ends: it returns `nil`, it
returns an error, or it panics. -/
inductive Outcome where
  | ok
  | error (e : Err)
  | panic (f : Fault)
  deriving DecidableEq, Repr

/-- The result of running a method of `Rule`: how it ended, and the rule and
the world at that point. -/
structure Step where
  out : Outcome
  r : Rule
  w : World
  deriving DecidableEq, Repr

/-! ## Helpers -/

/-- Two's complement wrap-around of a 64-bit signed integer. -/
def wrap64 (x : Int) : Int := (x + 2 ^ 63) % 2 ^ 64 - 2 ^ 63

/-- The assignment `actions[0].TargetGroupArn = arn`; `none` when `actions` is empty. -/
def setFirstTargetGroupArn (actions : List Action) (arn : Option String) :
    Option (List Action) :=
  match actions with
  | [] => none
  | a :: rest => some ({ a with TargetGroupArn := arn } :: rest)

/-- Record a remote call. -/
def World.record (w : World) (c : Call) : World :=
  { w with calls := w.calls ++ [c] }

/-- The call `rOpts.Eventf(...)`. -/
def World.Eventf (w : World) (t : EventType) (reason format : String)
    (args : List String) : World :=
  { w with events := w.events ++ [Event.mk t reason format args] }

/-- Modelled from the spec: `log.Prettify` (package `pkg/util/log`, not among
the sources) is used by `needsModification` only to compare the two condition
lists as strings; the spec has conditions "compared by structural equality",
so two lists render differently exactly when they differ structurally. -/
def prettifyDiffers (a b : List RuleCondition) : Bool := a != b

/-- Modelled from the spec: `util.DeepEqual` (package `pkg/util/types`, not
among the sources) on two `*bool`: the spec has "their `isDefault` flags
match". -/
def deepEqualFlag (a b : Option Bool) : Bool := a == b

/-- Modelled from the spec: `util.DeepEqual` (package `pkg/util/types`, not
among the sources) on two condition lists: the spec has "their `conditions`
match structurally". -/
def deepEqualConditions (a b : List RuleCondition) : Bool := a == b

/-! ## The methods of `Rule` -/

/-- The function `NewRule(path, svcName, logger)`. -/
def NewRule (path svcName : String) : Rule :=
  let r : ElbRule :=
    { Actions := [{ TargetGroupArn := none, Type_ := some "forward" }]
      Conditions := []
      IsDefault := none
      Priority := none
      RuleArn := none }
  let r : ElbRule :=
    if path = "/" ∨ path = "" then
      { r with IsDefault := some true, Priority := some "default" }
    else
      { r with
        IsDefault := some false
        Conditions := [{ Field := some "path-pattern", Values := [some path] }] }
  { SvcName := svcName, CurrentRule := none, DesiredRule := some r, deleted := false }

/-- The method `needsModification`.  It reads `dr.Conditions` only when
`CurrentRule` is present; a nil `DesiredRule` is then a nil dereference. -/
def Rule.needsModification (r : Rule) : Except Fault Bool :=
  match r.CurrentRule with
  | none => .ok true
  | some cr =>
    match r.DesiredRule with
    | none => .error Fault.nilDereference
    | some dr => if prettifyDiffers cr.Conditions dr.Conditions then .ok true else .ok false

/-- The method `Equals`. -/
def Rule.Equals (r : Rule) (target : Option ElbRule) : Bool :=
  match r.CurrentRule, target with
  | none, none => false
  | none, some _ => false
  | some _, none => false
  | some cr, some t =>
    if !deepEqualFlag cr.IsDefault t.IsDefault then false
    else if !deepEqualConditions cr.Conditions t.Conditions then false
    else true

/-- The method `modify`: unimplemented, returns nil. -/
def Rule.modify (r : Rule) (w : World) : Step :=
  { out := Outcome.ok, r := r, w := w }

/-- The method `delete`. -/
def Rule.delete (env : Env) (r : Rule) (w : World) : Step :=
  match r.CurrentRule with
  | none => { out := Outcome.ok, r := r, w := w }
  | some cr =>
    match cr.IsDefault with
    | none => { out := Outcome.panic Fault.nilDereference, r := r, w := w }
    | some true => { out := Outcome.ok, r := r, w := w }
    | some false =>
      let inp : DeleteRuleInput := { RuleArn := cr.RuleArn }
      let resp := env.DeleteRule w.calls inp
      let w1 := w.record (Call.deleteRule inp resp)
      match resp with
      | Response.err e =>
        match cr.Priority with
        | none => { out := Outcome.panic Fault.nilDereference, r := r, w := w1 }
        | some p =>
          { out := Outcome.error e, r := r,
            w := w1.Eventf EventType.warning "ERROR" "Error deleting %s rule: %s" [p, e.msg] }
      | Response.ok _ =>
        { out := Outcome.ok, r := { r with deleted := true }, w := w1 }

/-- Lines 111 to 119 of `create`: the writes to `in.Actions[0].TargetGroupArn`.
First the ARN of `lb.TargetGroups[0]` is written; then, when `LookupBySvc`
answers a non-negative index, the ARN of the target group at that index.
The result is the action list after the writes, or, when an index expression
panics, `Except.error` with the action list as it is at that point. -/
def assignTargetGroup (env : Env) (lb : LoadBalancer) (svcName : String)
    (actions : List Action) : Except (List Action) (List Action) :=
  match lb.TargetGroups[0]? with
  | none => .error actions
  | some tg0 =>
    match setFirstTargetGroupArn actions tg0.CurrentTargetGroup.TargetGroupArn with
    | none => .error actions
    | some acts0 =>
      let tgIndex := env.LookupBySvc lb.TargetGroups svcName
      if tgIndex < 0 then .ok acts0
      else
        match lb.TargetGroups[tgIndex.toNat]? with
        | none => .error acts0
        | some tg =>
          match setFirstTargetGroupArn acts0 tg.CurrentTargetGroup.TargetGroupArn with
          | none => .error acts0
          | some acts => .ok acts

/-- The method `create`.  The writes to `in.Actions[0].TargetGroupArn` go
through the action shared with `r.DesiredRule`, so they are visible in
`r.DesiredRule` from then on, whatever the remote call answers. -/
def Rule.create (env : Env) (l : Listener) (r : Rule) (w : World) : Step :=
  match r.DesiredRule with
  | none => { out := Outcome.panic Fault.nilDereference, r := r, w := w }
  | some dr =>
    let lb := w.lb
    match assignTargetGroup env lb r.SvcName dr.Actions with
    | .error acts =>
      { out := Outcome.panic Fault.indexOutOfRange
        r := { r with DesiredRule := some { dr with Actions := acts } }
        w := w }
    | .ok acts =>
      let r1 : Rule := { r with DesiredRule := some { dr with Actions := acts } }
      let inp : CreateRuleInput :=
        { Actions := acts
          Conditions := dr.Conditions
          ListenerArn := l.CurrentListener.ListenerArn
          Priority := lb.LastRulePriority }
      let resp := env.CreateRule w.calls inp
      let w1 := w.record (Call.createRule inp resp)
      match resp with
      | Response.err e =>
        { out := Outcome.error e, r := r1,
          w := w1.Eventf EventType.warning "ERROR" "Error creating %v rule: %s"
            [toString inp.Priority, e.msg] }
      | Response.ok o =>
        match o.Rules with
        | [] => { out := Outcome.panic Fault.indexOutOfRange, r := r1, w := w1 }
        | created :: _ =>
          { out := Outcome.ok
            r := { r1 with CurrentRule := some created }
            w := { w1 with lb := { lb with LastRulePriority := wrap64 (lb.LastRulePriority + 1) } } }

/-- The method `Reconcile`. -/
def Rule.Reconcile (env : Env) (l : Listener) (r : Rule) (w : World) : Step :=
  match r.DesiredRule with
  | none =>
    match r.CurrentRule with
    | none => { out := Outcome.ok, r := r, w := w }
    | some cr =>
      match cr.IsDefault with
      | none => { out := Outcome.panic Fault.nilDereference, r := r, w := w }
      | some true => { out := Outcome.ok, r := r, w := w }
      | some false =>
        let s := r.delete env w
        match s.out with
        | Outcome.ok =>
          match s.r.CurrentRule.bind ElbRule.Priority with
          | none => { s with out := Outcome.panic Fault.nilDereference }
          | some p =>
            { s with w := s.w.Eventf EventType.normal "DELETE" "%s rule deleted" [p] }
        | _ => s
  | some dr =>
    match dr.IsDefault with
    | none => { out := Outcome.panic Fault.nilDereference, r := r, w := w }
    | some true => { out := Outcome.ok, r := { r with CurrentRule := r.DesiredRule }, w := w }
    | some false =>
      match r.CurrentRule with
      | none =>
        let s := r.create env l w
        match s.out with
        | Outcome.ok =>
          match s.r.CurrentRule.bind ElbRule.Priority with
          | none => { s with out := Outcome.panic Fault.nilDereference }
          | some p =>
            { s with w := s.w.Eventf EventType.normal "CREATE" "%s rule created" [p] }
        | _ => s
      | some cr =>
        match r.needsModification with
        | .error f => { out := Outcome.panic f, r := r, w := w }
        | .ok true =>
          let s := r.modify w
          match s.out with
          | Outcome.ok =>
            match cr.Priority with
            | none => { s with out := Outcome.panic Fault.nilDereference }
            | some p =>
              { s with w := s.w.Eventf EventType.normal "MODIFY" "%s rule modified" [p] }
          | _ => s
        | .ok false => { out := Outcome.ok, r := r, w := w }

/-! ## Observations on traces -/

/-- Whether a recorded call is a `CreateRule`. -/
def Call.isCreate : Call → Bool
  | Call.createRule _ _ => true
  | Call.deleteRule _ _ => false

/-- Whether a recorded call is a `DeleteRule`. -/
def Call.isDelete : Call → Bool
  | Call.createRule _ _ => false
  | Call.deleteRule _ _ => true

/-- The calls made between two worlds: what `after` has recorded beyond `before`. -/
def issued (before after : World) : List Call :=
  after.calls.drop before.calls.length

/-- The `Priority` values of the `CreateRule` calls of a trace, in call order. -/
def createPriorities : List Call → List Int
  | [] => []
  | Call.createRule inp _ :: cs => inp.Priority :: createPriorities cs
  | Call.deleteRule _ _ :: cs => createPriorities cs

/-- The dereferences and index expressions that `create` evaluates before the
remote call all succeed: the desired rule has a first action, the load
balancer has a first target group, and `LookupBySvc` answers a negative index
or one below the number of target groups. -/
def CreateReady (env : Env) (r : Rule) (lb : LoadBalancer) : Prop :=
  lb.TargetGroups ≠ [] ∧
  r.DesiredRule.map ElbRule.Actions ≠ some [] ∧
  env.LookupBySvc lb.TargetGroups r.SvcName < lb.TargetGroups.length

instance (env : Env) (r : Rule) (lb : LoadBalancer) : Decidable (CreateReady env r lb) := by
  unfold CreateReady
  infer_instance

/-- A `DeleteRule` call was made between the two worlds. -/
def issuesDelete (before after : World) : Prop :=
  ∃ c ∈ issued before after, c.isDelete = true

/-- A `CreateRule` call was made between the two worlds. -/
def issuesCreate (before after : World) : Prop :=
  ∃ c ∈ issued before after, c.isCreate = true

instance (before after : World) : Decidable (issuesDelete before after) := by
  unfold issuesDelete
  infer_instance

instance (before after : World) : Decidable (issuesCreate before after) := by
  unfold issuesCreate
  infer_instance

/-! ## Concrete collaborators, for evaluating the definitions -/

/-- Modelled from the spec: `TargetGroups.LookupBySvc` (not among the sources):
"lookup is by exact service-name match against the set of target groups";
the index of the first match, `-1` when there is none. -/
def lookupBySvc : List TargetGroup → String → Int
  | [], _ => -1
  | tg :: tgs, svc =>
    if tg.SvcName = svc then 0
    else if lookupBySvc tgs svc < 0 then -1 else lookupBySvc tgs svc + 1

/-- A remote API that accepts every call; a created rule comes back with the
conditions and actions that were sent. -/
def remoteUp : Env where
  CreateRule := fun _ inp =>
    Response.ok ⟨[{ Actions := inp.Actions, Conditions := inp.Conditions,
                    IsDefault := some false, Priority := some "assigned",
                    RuleArn := some "arn:rule/new" }]⟩
  DeleteRule := fun _ _ => Response.ok ()
  LookupBySvc := lookupBySvc

/-- A remote API that rejects every call. -/
def remoteDown : Env where
  CreateRule := fun _ _ => Response.err ⟨"ServiceUnavailable"⟩
  DeleteRule := fun _ _ => Response.err ⟨"ServiceUnavailable"⟩
  LookupBySvc := lookupBySvc

/-- A load balancer with the target groups `svc-a -> tg1` and `svc-b -> tg2`
and the allocator at 10. -/
def lbTwo : LoadBalancer where
  LastRulePriority := 10
  TargetGroups := [⟨"svc-a", ⟨some "tg1"⟩⟩, ⟨"svc-b", ⟨some "tg2"⟩⟩]

/-- A world around `lbTwo` in which nothing has happened yet. -/
def worldTwo : World where
  lb := lbTwo
  calls := []
  events := []

/-- A listener with an ARN. -/
def listenerOne : Listener where
  CurrentListener := ⟨some "arn:listener/1"⟩

/-- A rule as AWS reports it: not the default rule, priority "5". -/
def awsRuleFive : ElbRule where
  Actions := [⟨some "tg1", some "forward"⟩]
  Conditions := [⟨some "path-pattern", [some "/api"]⟩]
  IsDefault := some false
  Priority := some "5"
  RuleArn := some "arn:rule/5"

/-- The default rule of a listener as AWS reports it. -/
def awsDefaultRule : ElbRule where
  Actions := [⟨some "tg1", some "forward"⟩]
  Conditions := []
  IsDefault := some true
  Priority := some "default"
  RuleArn := some "arn:rule/default"

/-- The error a recorded call came back with, if it failed. -/
def Call.failure : Call → Option Err
  | Call.createRule _ (Response.err e) => some e
  | Call.deleteRule _ (Response.err e) => some e
  | _ => none

/-- The `TargetGroupArn` of the first action of a `CreateRule` input; `none`
when the input has no action, `some none` when the ARN is nil. -/
def CreateRuleInput.firstTargetGroupArn (inp : CreateRuleInput) : Option (Option String) :=
  inp.Actions.head?.map Action.TargetGroupArn

/-- The rule of the create scenario of the spec: path `/api`, service `svc-a`,
nothing created yet. -/
def ruleApi : Rule := NewRule "/api" "svc-a"

/-- A rule whose current rule is `awsRuleFive` and whose desired rule is absent. -/
def ruleGone : Rule where
  SvcName := "svc-a"
  CurrentRule := some awsRuleFive
  DesiredRule := none
  deleted := false

/-- A rule for path `/shop` whose service, `svc-c`, has no target group on `lbTwo`. -/
def ruleStray : Rule := NewRule "/shop" "svc-c"

/-- The create state of the decision table: the current rule is absent and the
desired rule is present with `IsDefault` false. -/
def Rule.inCreateState (r : Rule) : Prop :=
  r.CurrentRule = none ∧ r.DesiredRule.bind ElbRule.IsDefault = some false

instance (r : Rule) : Decidable r.inCreateState := by
  unfold Rule.inCreateState
  infer_instance

/-- The rules of one listener reconciled one after the other against the same
load balancer, as the enclosing loop does; the steps in call order. -/
def ReconcileAll (env : Env) (l : Listener) : List Rule → World → List Step
  | [], _ => []
  | r :: rs, w => r.Reconcile env l w :: ReconcileAll env l rs (r.Reconcile env l w).w

/-- The world after `ReconcileAll`. -/
def worldAfter (env : Env) (l : Listener) : List Rule → World → World
  | [], w => w
  | r :: rs, w => worldAfter env l rs (r.Reconcile env l w).w

/-- A rule for path `/img` and service `svc-b`, nothing created yet. -/
def ruleImg : Rule := NewRule "/img" "svc-b"

/-- A rule whose desired rule is the default rule built by `NewRule "/"` and
whose current rule is the default rule as AWS reports it. -/
def ruleDefaultBoth : Rule where
  SvcName := "svc-a"
  CurrentRule := some awsDefaultRule
  DesiredRule := (NewRule "/" "svc-a").DesiredRule
  deleted := false

/-- A rule whose current and desired rules are not default and have the same
conditions. -/
def ruleSettled : Rule where
  SvcName := "svc-a"
  CurrentRule := some awsRuleFive
  DesiredRule := (NewRule "/api" "svc-a").DesiredRule
  deleted := false

/-! ## Further observations -/

/-- The rules of one listener reconciled one after the other against the same
load balancer, each step paired with the world it started from. -/
def ReconcileTrace (env : Env) (l : Listener) : List Rule → World → List (World × Step)
  | [], _ => []
  | r :: rs, w => (w, r.Reconcile env l w) :: ReconcileTrace env l rs (r.Reconcile env l w).w

/-- The priority sent in a recorded call when that call is a successful
create: a `CreateRule` that the remote API answered without error and with the
created rule (`o.Rules[0]` exists), which is when `create` goes on to set
`CurrentRule` and to advance the allocator. -/
def Call.successfulCreate : Call → Option Int
  | Call.createRule inp (Response.ok o) => if o.Rules = [] then none else some inp.Priority
  | Call.createRule _ (Response.err _) => none
  | Call.deleteRule _ _ => none

/-- The `Priority` values of the successful creates of a trace, in call order. -/
def successfulCreatePriorities (cs : List Call) : List Int :=
  cs.filterMap Call.successfulCreate

/-- An `elbv2.Rule` with the `TargetGroupArn` of its first action set to nil:
what is left of the rule when that one field is disregarded. -/
def ElbRule.withoutFirstTarget (d : ElbRule) : ElbRule :=
  { d with Actions := (setFirstTargetGroupArn d.Actions none).getD d.Actions }

/-- The method `Reconcile` called `n` times in a row on the same `Rule`. -/
def ReconcileTimes (env : Env) (l : Listener) : Nat → Rule → World → Rule × World
  | 0, r, w => (r, w)
  | n + 1, r, w => ReconcileTimes env l n (r.Reconcile env l w).r (r.Reconcile env l w).w

/-- A rule whose current rule is `awsRuleFive` (path `/api`) and whose desired
rule is for path `/v2`: the conditions differ. -/
def ruleChanged : Rule where
  SvcName := "svc-a"
  CurrentRule := some awsRuleFive
  DesiredRule := (NewRule "/v2" "svc-a").DesiredRule
  deleted := false

/-- A remote API that rejects the first call it ever gets and accepts every
later one. -/
def remoteFlaky : Env where
  CreateRule := fun calls inp =>
    if calls = [] then Response.err ⟨"Throttling"⟩ else remoteUp.CreateRule calls inp
  DeleteRule := fun calls inp =>
    if calls = [] then Response.err ⟨"Throttling"⟩ else remoteUp.DeleteRule calls inp
  LookupBySvc := lookupBySvc

/-- What one reconciliation may do to the allocator: leave it as it is, or
advance it by one in a run whose only remote call is a successful create (a
`CreateRule` answered without error and with the created rule) that carries
the value of before the run. -/
def allocatorStep (before : World) (s : Step) : Prop :=
  s.w.lb.LastRulePriority = before.lb.LastRulePriority ∨
  (s.w.lb.LastRulePriority = before.lb.LastRulePriority + 1 ∧
    ∃ inp o, issued before s.w = [Call.createRule inp (Response.ok o)] ∧
      o.Rules ≠ [] ∧ inp.Priority = before.lb.LastRulePriority)

/-- A world around `lbTwo` whose allocator is at the largest `int64`. -/
def worldAtMax : World where
  lb := { lbTwo with LastRulePriority := 9223372036854775807 }
  calls := []
  events := []

/-! ## The VPC lookup of `pkg/util/aws/ec2.go`

The remote API `DescribeSubnets` is a function of the history of calls and of
the input, as for the rules.  Time does not pass in the embedding: the expiry
handed to `Set` is stored with the entry and never acted upon.  The cache
holds `*string` values only, so the type assertion `item.Value().(*string)`
always goes through. -/

/-- The struct `ec2.Subnet`, reduced to its VPC. -/
structure Subnet where
  VpcId : Option String
  deriving DecidableEq, Repr

/-- The struct `ec2.DescribeSubnetsInput`. -/
structure DescribeSubnetsInput where
  SubnetIds : List (Option String)
  deriving DecidableEq, Repr

/-- The struct `ec2.DescribeSubnetsOutput`. -/
structure DescribeSubnetsOutput where
  Subnets : List Subnet
  deriving DecidableEq, Repr

/-- The Go constant `time.Minute`, a `time.Duration` in nanoseconds. -/
def minute : Int := 60 * 1000000000

/-- One entry of the cache: the stored `*string` and the expiry it was stored
with. -/
structure CacheItem where
  value : Option String
  ttl : Int
  deriving DecidableEq, Repr

/-- Modelled from the spec: the type `APICache` (a wrapper of `ccache.Cache`,
not among the sources), as the key-value state of the spec's
`get(key) -> value | absent` and `set(key, value, ttl)`. -/
structure APICache where
  items : List (String × CacheItem)
  deriving DecidableEq, Repr

/-- Modelled from the spec: `cache.Get(key)`, the entry stored under `key` or
nil. -/
def APICache.Get (c : APICache) (key : String) : Option CacheItem :=
  c.items.lookup key

/-- Modelled from the spec: `cache.Set(key, value, ttl)`, which replaces what
was stored under `key`. -/
def APICache.Set (c : APICache) (key : String) (value : Option String) (ttl : Int) :
    APICache :=
  ⟨(key, ⟨value, ttl⟩) :: c.items.filter (fun kv => kv.1 != key)⟩

/-- One increment of the Prometheus counter `AWSCache`, by its labels. -/
structure CacheMetric where
  cache : String
  action : String
  deriving DecidableEq, Repr

/-- One `DescribeSubnets` call with the response it got. -/
structure Ec2Call where
  inp : DescribeSubnetsInput
  resp : Response DescribeSubnetsOutput
  deriving DecidableEq, Repr

/-- The state around `GetVPCID`: the cache of the `EC2` value, the remote calls
made so far and the counter increments so far. -/
structure Ec2World where
  cache : APICache
  calls : List Ec2Call
  metrics : List CacheMetric
  deriving DecidableEq, Repr

/-- The embedded `ec2iface.EC2API`, reduced to `DescribeSubnets`. -/
structure Ec2Env where
  DescribeSubnets : List Ec2Call → DescribeSubnetsInput → Response DescribeSubnetsOutput

/-- How `GetVPCID` ends: it returns `(vpc, nil)`, it returns `(nil, err)`, or it
panics. -/
inductive VpcOutcome where
  | ok (vpc : Option String)
  | error (e : Err)
  | panic (f : Fault)
  deriving DecidableEq, Repr

/-- The result of running `GetVPCID`: how it ended and the state at that point. -/
structure VpcStep where
  out : VpcOutcome
  w : Ec2World
  deriving DecidableEq, Repr

/-- The method `GetVPCID`. -/
def EC2.GetVPCID (env : Ec2Env) (subnets : List (Option String)) (w : Ec2World) : VpcStep :=
  match subnets with
  | [] => { out := VpcOutcome.error ⟨"Empty subnet list provided to getVPCID"⟩, w := w }
  | none :: _ => { out := VpcOutcome.panic Fault.nilDereference, w := w }
  | some first :: _ =>
    let key := first ++ "-vpc"
    match w.cache.Get key with
    | none =>
      let inp : DescribeSubnetsInput := { SubnetIds := subnets }
      let resp := env.DescribeSubnets w.calls inp
      let w1 : Ec2World := { w with calls := w.calls ++ [Ec2Call.mk inp resp] }
      match resp with
      | Response.err e => { out := VpcOutcome.error e, w := w1 }
      | Response.ok subnetInfo =>
        match subnetInfo.Subnets with
        | [] =>
          { out := VpcOutcome.error ⟨"DescribeSubnets returned no subnets"⟩, w := w1 }
        | s :: _ =>
          { out := VpcOutcome.ok s.VpcId
            w := { w1 with
                   cache := w1.cache.Set key s.VpcId (minute * 60)
                   metrics := w1.metrics ++ [CacheMetric.mk "vpc" "miss"] } }
    | some item =>
      { out := VpcOutcome.ok item.value
        w := { w with metrics := w.metrics ++ [CacheMetric.mk "vpc" "hit"] } }

/-- A `DescribeSubnets` that finds every subnet in `vpc-1`. -/
def ec2Up : Ec2Env where
  DescribeSubnets := fun _ inp => Response.ok ⟨inp.SubnetIds.map (fun _ => ⟨some "vpc-1"⟩)⟩

/-- An `EC2` state with an empty cache. -/
def ec2Fresh : Ec2World where
  cache := ⟨[]⟩
  calls := []
  metrics := []

/-- A world whose load balancer has no target group at all. -/
def worldNoTargets : World where
  lb := { LastRulePriority := 10, TargetGroups := [] }
  calls := []
  events := []

/-- A rule as `ruleGone`, but whose current rule has a nil `Priority`. -/
def ruleNoPriority : Rule where
  SvcName := "svc-a"
  CurrentRule := some { awsRuleFive with Priority := none }
  DesiredRule := none
  deleted := false

/-! ## Theorems -/

/-! ### The target-group writes of `create` -/

/-- What `assignTargetGroup` leaves behind when it does not panic: the first
action now points at the looked-up target group, or at the first target group
when the lookup is negative; nothing else changed. -/
theorem assignTargetGroup_ok (env : Env) (lb : LoadBalancer) (svc : String)
    (actions acts : List Action)
    (h : assignTargetGroup env lb svc actions = .ok acts) :
    ∃ a rest tg, actions = a :: rest ∧
      acts = { a with TargetGroupArn := tg.CurrentTargetGroup.TargetGroupArn } :: rest ∧
      ((env.LookupBySvc lb.TargetGroups svc < 0 ∧ lb.TargetGroups[0]? = some tg) ∨
       (0 ≤ env.LookupBySvc lb.TargetGroups svc ∧
        lb.TargetGroups[(env.LookupBySvc lb.TargetGroups svc).toNat]? = some tg)) := by
  unfold assignTargetGroup at h
  cases h0 : lb.TargetGroups[0]? with
  | none => simp [h0] at h
  | some tg0 =>
    cases actions with
    | nil => simp [h0, setFirstTargetGroupArn] at h
    | cons a rest =>
      simp only [h0, setFirstTargetGroupArn] at h
      by_cases hneg : env.LookupBySvc lb.TargetGroups svc < 0
      · simp only [hneg, if_true] at h
        refine ⟨a, rest, tg0, rfl, ?_, Or.inl ⟨hneg, rfl⟩⟩
        injection h with h
        exact h.symm
      · simp only [hneg, if_false] at h
        cases hi : lb.TargetGroups[(env.LookupBySvc lb.TargetGroups svc).toNat]? with
        | none => simp [hi] at h
        | some tg =>
          simp only [hi] at h
          refine ⟨a, rest, tg, rfl, ?_, Or.inr ⟨not_lt.mp hneg, rfl⟩⟩
          injection h with h
          exact h.symm

/-- The function `assignTargetGroup` goes through exactly when there is a first
action, a first target group and the looked-up index is below the number of
target groups. -/
theorem assignTargetGroup_ok_iff (env : Env) (lb : LoadBalancer) (svc : String)
    (actions : List Action) :
    (∃ acts, assignTargetGroup env lb svc actions = .ok acts) ↔
      lb.TargetGroups ≠ [] ∧ actions ≠ [] ∧
        env.LookupBySvc lb.TargetGroups svc < lb.TargetGroups.length := by
  constructor
  · rintro ⟨acts, h⟩
    obtain ⟨a, rest, tg, ha, -, hl⟩ := assignTargetGroup_ok env lb svc actions acts h
    have hne : lb.TargetGroups ≠ [] := by
      intro hnil
      rcases hl with ⟨-, h0⟩ | ⟨-, h0⟩ <;> simp [hnil] at h0
    refine ⟨hne, by simp [ha], ?_⟩
    rcases hl with ⟨hneg, -⟩ | ⟨hpos, hi⟩
    · have : (0 : Int) ≤ lb.TargetGroups.length := Int.ofNat_nonneg _
      omega
    · have hlt := (List.getElem?_eq_some_iff.mp hi).1
      omega
  · rintro ⟨hne, ha, hlt⟩
    unfold assignTargetGroup
    cases hT : lb.TargetGroups with
    | nil => exact absurd hT hne
    | cons tg0 tgs =>
      cases actions with
      | nil => exact absurd rfl ha
      | cons a rest =>
        simp only [List.getElem?_cons_zero, setFirstTargetGroupArn]
        by_cases hneg : env.LookupBySvc (tg0 :: tgs) svc < 0
        · simp only [hneg, if_true]
          exact ⟨_, rfl⟩
        · simp only [hneg, if_false]
          have hlt2 : (env.LookupBySvc (tg0 :: tgs) svc).toNat < (tg0 :: tgs).length := by
            rw [hT] at hlt
            omega
          rw [List.getElem?_eq_getElem hlt2]
          exact ⟨_, rfl⟩

/-! ### `create`, case by case -/

theorem create_of_panic (env : Env) (l : Listener) (r : Rule) (w : World) (dr : ElbRule)
    (acts : List Action) (hD : r.DesiredRule = some dr)
    (hA : assignTargetGroup env w.lb r.SvcName dr.Actions = .error acts) :
    r.create env l w =
      { out := Outcome.panic Fault.indexOutOfRange
        r := { r with DesiredRule := some { dr with Actions := acts } }
        w := w } := by
  simp only [Rule.create, hD, hA]

theorem create_of_err (env : Env) (l : Listener) (r : Rule) (w : World) (dr : ElbRule)
    (acts : List Action) (e : Err) (hD : r.DesiredRule = some dr)
    (hA : assignTargetGroup env w.lb r.SvcName dr.Actions = .ok acts)
    (hresp : env.CreateRule w.calls
      ⟨acts, dr.Conditions, l.CurrentListener.ListenerArn, w.lb.LastRulePriority⟩ =
        Response.err e) :
    r.create env l w =
      { out := Outcome.error e
        r := { r with DesiredRule := some { dr with Actions := acts } }
        w := (w.record (Call.createRule
                ⟨acts, dr.Conditions, l.CurrentListener.ListenerArn, w.lb.LastRulePriority⟩
                (Response.err e))).Eventf EventType.warning "ERROR"
                "Error creating %v rule: %s" [toString w.lb.LastRulePriority, e.msg] } := by
  simp only [Rule.create, hD, hA, hresp]

theorem create_of_empty (env : Env) (l : Listener) (r : Rule) (w : World) (dr : ElbRule)
    (acts : List Action) (o : CreateRuleOutput) (hD : r.DesiredRule = some dr)
    (hA : assignTargetGroup env w.lb r.SvcName dr.Actions = .ok acts)
    (hresp : env.CreateRule w.calls
      ⟨acts, dr.Conditions, l.CurrentListener.ListenerArn, w.lb.LastRulePriority⟩ =
        Response.ok o)
    (ho : o.Rules = []) :
    r.create env l w =
      { out := Outcome.panic Fault.indexOutOfRange
        r := { r with DesiredRule := some { dr with Actions := acts } }
        w := w.record (Call.createRule
                ⟨acts, dr.Conditions, l.CurrentListener.ListenerArn, w.lb.LastRulePriority⟩
                (Response.ok o)) } := by
  simp only [Rule.create, hD, hA, hresp, ho]

theorem create_of_ok (env : Env) (l : Listener) (r : Rule) (w : World) (dr : ElbRule)
    (acts : List Action) (o : CreateRuleOutput) (created : ElbRule) (more : List ElbRule)
    (hD : r.DesiredRule = some dr)
    (hA : assignTargetGroup env w.lb r.SvcName dr.Actions = .ok acts)
    (hresp : env.CreateRule w.calls
      ⟨acts, dr.Conditions, l.CurrentListener.ListenerArn, w.lb.LastRulePriority⟩ =
        Response.ok o)
    (ho : o.Rules = created :: more) :
    r.create env l w =
      { out := Outcome.ok
        r := { r with
               CurrentRule := some created
               DesiredRule := some { dr with Actions := acts } }
        w := { lb := { w.lb with LastRulePriority := wrap64 (w.lb.LastRulePriority + 1) }
               calls := w.calls ++ [Call.createRule
                 ⟨acts, dr.Conditions, l.CurrentListener.ListenerArn, w.lb.LastRulePriority⟩
                 (Response.ok o)]
               events := w.events } } := by
  simp only [Rule.create, hD, hA, hresp, ho, World.record]

/-! ### `Reconcile`, branch by branch -/

theorem Reconcile_absent_absent (env : Env) (l : Listener) (r : Rule) (w : World)
    (hD : r.DesiredRule = none) (hC : r.CurrentRule = none) :
    r.Reconcile env l w = { out := Outcome.ok, r := r, w := w } := by
  simp only [Rule.Reconcile, hD, hC]

theorem Reconcile_absent_nilflag (env : Env) (l : Listener) (r : Rule) (w : World)
    (cr : ElbRule) (hD : r.DesiredRule = none) (hC : r.CurrentRule = some cr)
    (hF : cr.IsDefault = none) :
    r.Reconcile env l w = { out := Outcome.panic Fault.nilDereference, r := r, w := w } := by
  simp only [Rule.Reconcile, hD, hC, hF]

theorem Reconcile_absent_default (env : Env) (l : Listener) (r : Rule) (w : World)
    (cr : ElbRule) (hD : r.DesiredRule = none) (hC : r.CurrentRule = some cr)
    (hF : cr.IsDefault = some true) :
    r.Reconcile env l w = { out := Outcome.ok, r := r, w := w } := by
  simp only [Rule.Reconcile, hD, hC, hF]

theorem Reconcile_delete_ok (env : Env) (l : Listener) (r : Rule) (w : World)
    (cr : ElbRule) (u : Unit) (hD : r.DesiredRule = none) (hC : r.CurrentRule = some cr)
    (hF : cr.IsDefault = some false)
    (hresp : env.DeleteRule w.calls ⟨cr.RuleArn⟩ = Response.ok u) :
    r.Reconcile env l w =
      match cr.Priority with
      | none =>
        { out := Outcome.panic Fault.nilDereference
          r := { r with deleted := true }
          w := w.record (Call.deleteRule ⟨cr.RuleArn⟩ (Response.ok u)) }
      | some p =>
        { out := Outcome.ok
          r := { r with deleted := true }
          w := (w.record (Call.deleteRule ⟨cr.RuleArn⟩ (Response.ok u))).Eventf
                EventType.normal "DELETE" "%s rule deleted" [p] } := by
  simp only [Rule.Reconcile, Rule.delete, hD, hC, hF, hresp]
  cases hP : cr.Priority <;> simp [hP]

theorem Reconcile_delete_err (env : Env) (l : Listener) (r : Rule) (w : World)
    (cr : ElbRule) (e : Err) (hD : r.DesiredRule = none) (hC : r.CurrentRule = some cr)
    (hF : cr.IsDefault = some false)
    (hresp : env.DeleteRule w.calls ⟨cr.RuleArn⟩ = Response.err e) :
    r.Reconcile env l w =
      match cr.Priority with
      | none =>
        { out := Outcome.panic Fault.nilDereference
          r := r
          w := w.record (Call.deleteRule ⟨cr.RuleArn⟩ (Response.err e)) }
      | some p =>
        { out := Outcome.error e
          r := r
          w := (w.record (Call.deleteRule ⟨cr.RuleArn⟩ (Response.err e))).Eventf
                EventType.warning "ERROR" "Error deleting %s rule: %s" [p, e.msg] } := by
  simp only [Rule.Reconcile, Rule.delete, hD, hC, hF, hresp]
  cases hP : cr.Priority <;> simp [hP]

theorem Reconcile_desired_nilflag (env : Env) (l : Listener) (r : Rule) (w : World)
    (dr : ElbRule) (hD : r.DesiredRule = some dr) (hF : dr.IsDefault = none) :
    r.Reconcile env l w = { out := Outcome.panic Fault.nilDereference, r := r, w := w } := by
  simp only [Rule.Reconcile, hD, hF]

theorem Reconcile_adopt (env : Env) (l : Listener) (r : Rule) (w : World)
    (dr : ElbRule) (hD : r.DesiredRule = some dr) (hF : dr.IsDefault = some true) :
    r.Reconcile env l w =
      { out := Outcome.ok, r := { r with CurrentRule := some dr }, w := w } := by
  simp only [Rule.Reconcile, hD, hF]

theorem Reconcile_create (env : Env) (l : Listener) (r : Rule) (w : World)
    (dr : ElbRule) (hD : r.DesiredRule = some dr) (hF : dr.IsDefault = some false)
    (hC : r.CurrentRule = none) :
    r.Reconcile env l w =
      match (r.create env l w).out with
      | Outcome.ok =>
        match (r.create env l w).r.CurrentRule.bind ElbRule.Priority with
        | none => { r.create env l w with out := Outcome.panic Fault.nilDereference }
        | some p =>
          { r.create env l w with
            w := (r.create env l w).w.Eventf EventType.normal "CREATE" "%s rule created" [p] }
      | _ => r.create env l w := by
  simp only [Rule.Reconcile, hD, hF, hC]

theorem Reconcile_present_present (env : Env) (l : Listener) (r : Rule) (w : World)
    (dr cr : ElbRule) (hD : r.DesiredRule = some dr) (hF : dr.IsDefault = some false)
    (hC : r.CurrentRule = some cr) :
    r.Reconcile env l w =
      if cr.Conditions = dr.Conditions then { out := Outcome.ok, r := r, w := w }
      else
        match cr.Priority with
        | none => { out := Outcome.panic Fault.nilDereference, r := r, w := w }
        | some p =>
          { out := Outcome.ok, r := r,
            w := w.Eventf EventType.normal "MODIFY" "%s rule modified" [p] } := by
  simp only [Rule.Reconcile, Rule.needsModification, Rule.modify, prettifyDiffers, hD, hF, hC]
  by_cases h : cr.Conditions = dr.Conditions
  · simp [h]
  · simp only [h, if_false]
    have : (cr.Conditions != dr.Conditions) = true := by simpa using h
    simp only [this, if_true]

theorem Reconcile_create_panic (env : Env) (l : Listener) (r : Rule) (w : World)
    (dr : ElbRule) (acts : List Action) (hD : r.DesiredRule = some dr)
    (hF : dr.IsDefault = some false) (hC : r.CurrentRule = none)
    (hA : assignTargetGroup env w.lb r.SvcName dr.Actions = .error acts) :
    r.Reconcile env l w =
      { out := Outcome.panic Fault.indexOutOfRange
        r := { r with DesiredRule := some { dr with Actions := acts } }
        w := w } := by
  rw [Reconcile_create env l r w dr hD hF hC, create_of_panic env l r w dr acts hD hA]

theorem Reconcile_create_err (env : Env) (l : Listener) (r : Rule) (w : World)
    (dr : ElbRule) (acts : List Action) (e : Err) (hD : r.DesiredRule = some dr)
    (hF : dr.IsDefault = some false) (hC : r.CurrentRule = none)
    (hA : assignTargetGroup env w.lb r.SvcName dr.Actions = .ok acts)
    (hresp : env.CreateRule w.calls
      ⟨acts, dr.Conditions, l.CurrentListener.ListenerArn, w.lb.LastRulePriority⟩ =
        Response.err e) :
    r.Reconcile env l w =
      { out := Outcome.error e
        r := { r with DesiredRule := some { dr with Actions := acts } }
        w := (w.record (Call.createRule
                ⟨acts, dr.Conditions, l.CurrentListener.ListenerArn, w.lb.LastRulePriority⟩
                (Response.err e))).Eventf EventType.warning "ERROR"
                "Error creating %v rule: %s" [toString w.lb.LastRulePriority, e.msg] } := by
  rw [Reconcile_create env l r w dr hD hF hC, create_of_err env l r w dr acts e hD hA hresp]

theorem Reconcile_create_empty (env : Env) (l : Listener) (r : Rule) (w : World)
    (dr : ElbRule) (acts : List Action) (o : CreateRuleOutput) (hD : r.DesiredRule = some dr)
    (hF : dr.IsDefault = some false) (hC : r.CurrentRule = none)
    (hA : assignTargetGroup env w.lb r.SvcName dr.Actions = .ok acts)
    (hresp : env.CreateRule w.calls
      ⟨acts, dr.Conditions, l.CurrentListener.ListenerArn, w.lb.LastRulePriority⟩ =
        Response.ok o)
    (ho : o.Rules = []) :
    r.Reconcile env l w =
      { out := Outcome.panic Fault.indexOutOfRange
        r := { r with DesiredRule := some { dr with Actions := acts } }
        w := w.record (Call.createRule
                ⟨acts, dr.Conditions, l.CurrentListener.ListenerArn, w.lb.LastRulePriority⟩
                (Response.ok o)) } := by
  rw [Reconcile_create env l r w dr hD hF hC, create_of_empty env l r w dr acts o hD hA hresp ho]

theorem Reconcile_create_ok (env : Env) (l : Listener) (r : Rule) (w : World)
    (dr : ElbRule) (acts : List Action) (o : CreateRuleOutput) (created : ElbRule)
    (more : List ElbRule) (hD : r.DesiredRule = some dr)
    (hF : dr.IsDefault = some false) (hC : r.CurrentRule = none)
    (hA : assignTargetGroup env w.lb r.SvcName dr.Actions = .ok acts)
    (hresp : env.CreateRule w.calls
      ⟨acts, dr.Conditions, l.CurrentListener.ListenerArn, w.lb.LastRulePriority⟩ =
        Response.ok o)
    (ho : o.Rules = created :: more) :
    r.Reconcile env l w =
      match created.Priority with
      | none =>
        { out := Outcome.panic Fault.nilDereference
          r := { r with
                 CurrentRule := some created
                 DesiredRule := some { dr with Actions := acts } }
          w := { lb := { w.lb with LastRulePriority := wrap64 (w.lb.LastRulePriority + 1) }
                 calls := w.calls ++ [Call.createRule
                   ⟨acts, dr.Conditions, l.CurrentListener.ListenerArn, w.lb.LastRulePriority⟩
                   (Response.ok o)]
                 events := w.events } }
      | some p =>
        { out := Outcome.ok
          r := { r with
                 CurrentRule := some created
                 DesiredRule := some { dr with Actions := acts } }
          w := { lb := { w.lb with LastRulePriority := wrap64 (w.lb.LastRulePriority + 1) }
                 calls := w.calls ++ [Call.createRule
                   ⟨acts, dr.Conditions, l.CurrentListener.ListenerArn, w.lb.LastRulePriority⟩
                   (Response.ok o)]
                 events := w.events ++
                   [Event.mk EventType.normal "CREATE" "%s rule created" [p]] } } := by
  rw [Reconcile_create env l r w dr hD hF hC,
    create_of_ok env l r w dr acts o created more hD hA hresp ho]
  cases hP : created.Priority <;> simp [hP, World.Eventf]

/-- In the create branch `Reconcile` either panics before the remote call, with
the world untouched, or records exactly one `CreateRule` call whose input is
the one built from the desired rule, the listener and the allocator. -/
theorem Reconcile_create_calls (env : Env) (l : Listener) (r : Rule) (w : World)
    (dr : ElbRule) (hD : r.DesiredRule = some dr)
    (hF : dr.IsDefault = some false) (hC : r.CurrentRule = none) :
    (∃ acts, assignTargetGroup env w.lb r.SvcName dr.Actions = .error acts ∧
      (r.Reconcile env l w).out = Outcome.panic Fault.indexOutOfRange ∧
      (r.Reconcile env l w).w = w) ∨
    (∃ acts, assignTargetGroup env w.lb r.SvcName dr.Actions = .ok acts ∧
      (r.Reconcile env l w).w.calls = w.calls ++ [Call.createRule
        ⟨acts, dr.Conditions, l.CurrentListener.ListenerArn, w.lb.LastRulePriority⟩
        (env.CreateRule w.calls
          ⟨acts, dr.Conditions, l.CurrentListener.ListenerArn, w.lb.LastRulePriority⟩)]) := by
  cases hA : assignTargetGroup env w.lb r.SvcName dr.Actions with
  | error acts =>
    left
    refine ⟨acts, rfl, ?_, ?_⟩ <;> rw [Reconcile_create_panic env l r w dr acts hD hF hC hA]
  | ok acts =>
    right
    refine ⟨acts, rfl, ?_⟩
    cases hresp : env.CreateRule w.calls
      ⟨acts, dr.Conditions, l.CurrentListener.ListenerArn, w.lb.LastRulePriority⟩ with
    | err e =>
      rw [Reconcile_create_err env l r w dr acts e hD hF hC hA hresp]
      rfl
    | ok o =>
      cases ho : o.Rules with
      | nil =>
        rw [Reconcile_create_empty env l r w dr acts o hD hF hC hA hresp ho]
        rfl
      | cons created more =>
        rw [Reconcile_create_ok env l r w dr acts o created more hD hF hC hA hresp ho]
        cases created.Priority <;> rfl

/-- With the desired rule present, `CreateReady` says exactly that the
target-group writes of `create` go through. -/
theorem CreateReady_iff (env : Env) (r : Rule) (lb : LoadBalancer) (dr : ElbRule)
    (hD : r.DesiredRule = some dr) :
    CreateReady env r lb ↔ ∃ acts, assignTargetGroup env lb r.SvcName dr.Actions = .ok acts := by
  rw [assignTargetGroup_ok_iff]
  simp [CreateReady, hD]

/-! ### Traces -/

theorem issued_of_append (w w1 : World) (xs : List Call) (h : w1.calls = w.calls ++ xs) :
    issued w w1 = xs := by
  simp [issued, h]

theorem issued_of_eq (w w1 : World) (h : w1.calls = w.calls) : issued w w1 = [] := by
  simp [issued, h]

/-- Every run of `Reconcile` is of one of three kinds: no remote call; one
`DeleteRule` call on the ARN of the current rule, in the delete state; one
`CreateRule` call, in the create state with the input buildable. -/
theorem Reconcile_calls_cases (env : Env) (l : Listener) (r : Rule) (w : World) :
    ((r.Reconcile env l w).w.calls = w.calls ∧
      ¬ (r.DesiredRule = none ∧ ∃ cr, r.CurrentRule = some cr ∧ cr.IsDefault = some false) ∧
      ¬ ((∃ dr, r.DesiredRule = some dr ∧ dr.IsDefault = some false) ∧ r.CurrentRule = none ∧
          CreateReady env r w.lb)) ∨
    (∃ cr, (r.Reconcile env l w).w.calls = w.calls ++
        [Call.deleteRule ⟨cr.RuleArn⟩ (env.DeleteRule w.calls ⟨cr.RuleArn⟩)] ∧
      r.DesiredRule = none ∧ r.CurrentRule = some cr ∧ cr.IsDefault = some false) ∨
    (∃ inp, (r.Reconcile env l w).w.calls = w.calls ++
        [Call.createRule inp (env.CreateRule w.calls inp)] ∧
      (∃ dr, r.DesiredRule = some dr ∧ dr.IsDefault = some false) ∧ r.CurrentRule = none ∧
      CreateReady env r w.lb) := by
  cases hD : r.DesiredRule with
  | none =>
    cases hC : r.CurrentRule with
    | none =>
      left
      rw [Reconcile_absent_absent env l r w hD hC]
      simp
    | some cr =>
      cases hF : cr.IsDefault with
      | none =>
        left
        rw [Reconcile_absent_nilflag env l r w cr hD hC hF]
        simp [hF]
      | some b =>
        cases b with
        | true =>
          left
          rw [Reconcile_absent_default env l r w cr hD hC hF]
          simp [hF]
        | false =>
          right; left
          refine ⟨cr, ?_, rfl, rfl, hF⟩
          cases hresp : env.DeleteRule w.calls ⟨cr.RuleArn⟩ with
          | ok u =>
            rw [Reconcile_delete_ok env l r w cr u hD hC hF hresp]
            cases cr.Priority <;> rfl
          | err e =>
            rw [Reconcile_delete_err env l r w cr e hD hC hF hresp]
            cases cr.Priority <;> rfl
  | some dr =>
    cases hF : dr.IsDefault with
    | none =>
      left
      rw [Reconcile_desired_nilflag env l r w dr hD hF]
      simp [hF]
    | some b =>
      cases b with
      | true =>
        left
        rw [Reconcile_adopt env l r w dr hD hF]
        simp [hF]
      | false =>
        cases hC : r.CurrentRule with
        | some cr =>
          left
          rw [Reconcile_present_present env l r w dr cr hD hF hC]
          refine ⟨?_, by simp, by simp⟩
          split
          · rfl
          · cases cr.Priority <;> rfl
        | none =>
          rcases Reconcile_create_calls env l r w dr hD hF hC with
            ⟨acts, hA, -, hw⟩ | ⟨acts, hA, hcalls⟩
          · left
            refine ⟨by rw [hw], by simp, ?_⟩
            rintro ⟨-, -, hR⟩
            obtain ⟨acts2, hA2⟩ := (CreateReady_iff env r w.lb dr hD).mp hR
            rw [hA] at hA2
            cases hA2
          · right; right
            exact ⟨_, hcalls, ⟨dr, rfl, hF⟩, rfl, (CreateReady_iff env r w.lb dr hD).mpr ⟨acts, hA⟩⟩

/-! ### The claims -/

/-- C1, as stated, fails: the rule for `/api` is in the create state (desired
rule present and not default, current rule absent), and on a load balancer
without target groups `Reconcile` makes no `CreateRule` call: `create` panics
at `lb.TargetGroups[0]` before the call. -/
theorem create_state_without_target_group :
    ruleApi.inCreateState ∧
    worldNoTargets.lb.TargetGroups = [] ∧
    ¬ issuesCreate worldNoTargets (ruleApi.Reconcile remoteUp listenerOne worldNoTargets).w ∧
    issued worldNoTargets (ruleApi.Reconcile remoteUp listenerOne worldNoTargets).w = [] ∧
    (ruleApi.Reconcile remoteUp listenerOne worldNoTargets).out =
      Outcome.panic Fault.indexOutOfRange := by
  decide

/-- C1, amended: in every state `Reconcile` makes at most one remote call,
appended to the trace.  A `DeleteRule` call is made exactly when `DesiredRule`
is absent and `CurrentRule` is present with `IsDefault` false.  A `CreateRule`
call is made exactly when `DesiredRule` is present with `IsDefault` false,
`CurrentRule` is absent and the input can be built (`CreateReady`: a first
action, a first target group, a looked-up index below the number of target
groups); in the create state without that, `create` panics before the call.
In every other state no call is made, and never both a create and a delete. -/
theorem Reconcile_decision_table (env : Env) (l : Listener) (r : Rule) (w : World) :
    (r.Reconcile env l w).w.calls = w.calls ++ issued w (r.Reconcile env l w).w ∧
    (issued w (r.Reconcile env l w).w).length ≤ 1 ∧
    (issuesDelete w (r.Reconcile env l w).w ↔
      r.DesiredRule = none ∧ ∃ cr, r.CurrentRule = some cr ∧ cr.IsDefault = some false) ∧
    (issuesCreate w (r.Reconcile env l w).w ↔
      (∃ dr, r.DesiredRule = some dr ∧ dr.IsDefault = some false) ∧ r.CurrentRule = none ∧
        CreateReady env r w.lb) ∧
    ((∃ dr, r.DesiredRule = some dr ∧ dr.IsDefault = some false) ∧ r.CurrentRule = none →
      ¬ CreateReady env r w.lb →
      (r.Reconcile env l w).out = Outcome.panic Fault.indexOutOfRange ∧
      issued w (r.Reconcile env l w).w = []) ∧
    (¬ (r.DesiredRule = none ∧ ∃ cr, r.CurrentRule = some cr ∧ cr.IsDefault = some false) →
      ¬ ((∃ dr, r.DesiredRule = some dr ∧ dr.IsDefault = some false) ∧ r.CurrentRule = none ∧
          CreateReady env r w.lb) →
      issued w (r.Reconcile env l w).w = []) ∧
    ¬ (issuesCreate w (r.Reconcile env l w).w ∧ issuesDelete w (r.Reconcile env l w).w) := by
  have hpanic : (∃ dr, r.DesiredRule = some dr ∧ dr.IsDefault = some false) ∧
      r.CurrentRule = none → ¬ CreateReady env r w.lb →
      (r.Reconcile env l w).out = Outcome.panic Fault.indexOutOfRange := by
    rintro ⟨⟨dr, hD, hF⟩, hC⟩ hR
    rcases Reconcile_create_calls env l r w dr hD hF hC with ⟨acts, -, hout, -⟩ | ⟨acts, hA, -⟩
    · exact hout
    · exact absurd ((CreateReady_iff env r w.lb dr hD).mpr ⟨acts, hA⟩) hR
  rcases Reconcile_calls_cases env l r w with
    ⟨hcalls, hnd, hnc⟩ | ⟨cr, hcalls, hD, hC, hF⟩ | ⟨inp, hcalls, ⟨dr, hD, hF⟩, hC, hR⟩
  · have hi : issued w (r.Reconcile env l w).w = [] := issued_of_eq _ _ hcalls
    simp only [issuesDelete, issuesCreate, hi]
    refine ⟨by simp [hcalls], by simp, ?_, ?_, ?_, by simp, by simp⟩
    · constructor
      · simp
      · intro h
        exact absurd h hnd
    · constructor
      · simp
      · intro h
        exact absurd h hnc
    · intro h hR
      exact ⟨hpanic h hR, trivial⟩
  · have hi := issued_of_append _ _ _ hcalls
    simp only [issuesDelete, issuesCreate, hi]
    refine ⟨hcalls, by simp, ?_, ?_, ?_, ?_, by simp [Call.isCreate]⟩
    · simp [Call.isDelete, hD, hC, hF]
    · simp [Call.isCreate, hD]
    · simp [hD]
    · intro h
      exact absurd ⟨hD, cr, hC, hF⟩ h
  · have hi := issued_of_append _ _ _ hcalls
    simp only [issuesDelete, issuesCreate, hi]
    refine ⟨hcalls, by simp, ?_, ?_, ?_, ?_, by simp [Call.isDelete]⟩
    · simp [Call.isDelete, hD]
    · constructor
      · intro _
        exact ⟨⟨dr, hD, hF⟩, hC, hR⟩
      · intro _
        simp [Call.isCreate]
    · intro _ hn
      exact absurd hR hn
    · intro _ h
      exact absurd ⟨⟨dr, hD, hF⟩, hC, hR⟩ h

/-- C2: when `CurrentRule` is a default rule, `Reconcile` makes no remote call
at all, in particular no `DeleteRule` call, and leaves `deleted` as it was,
whatever `DesiredRule` is; a direct call of `delete` returns nil and changes
nothing. -/
theorem default_rule_never_deleted (env : Env) (l : Listener) (r : Rule) (w : World)
    (cr : ElbRule) (hC : r.CurrentRule = some cr) (hF : cr.IsDefault = some true) :
    ¬ issuesDelete w (r.Reconcile env l w).w ∧
    issued w (r.Reconcile env l w).w = [] ∧
    (r.Reconcile env l w).r.deleted = r.deleted ∧
    (r.deleted = false → (r.Reconcile env l w).r.deleted = false) ∧
    r.delete env w = { out := Outcome.ok, r := r, w := w } := by
  have hdel : r.delete env w = { out := Outcome.ok, r := r, w := w } := by
    simp only [Rule.delete, hC, hF]
  have key : (r.Reconcile env l w).w.calls = w.calls ∧
      (r.Reconcile env l w).r.deleted = r.deleted := by
    cases hD : r.DesiredRule with
    | none =>
      rw [Reconcile_absent_default env l r w cr hD hC hF]
      exact ⟨rfl, rfl⟩
    | some dr =>
      cases hG : dr.IsDefault with
      | none =>
        rw [Reconcile_desired_nilflag env l r w dr hD hG]
        exact ⟨rfl, rfl⟩
      | some b =>
        cases b with
        | true =>
          rw [Reconcile_adopt env l r w dr hD hG]
          exact ⟨rfl, rfl⟩
        | false =>
          rw [Reconcile_present_present env l r w dr cr hD hG hC]
          split
          · exact ⟨rfl, rfl⟩
          · cases cr.Priority <;> exact ⟨rfl, rfl⟩
  have hi := issued_of_eq _ _ key.1
  refine ⟨?_, hi, key.2, fun h => key.2.trans h, hdel⟩
  simp [issuesDelete, hi]

/-- Witness of C2: the default rule reported by AWS with the desired rule absent. -/
theorem default_rule_never_deleted_witness :
    ¬ issuesDelete worldTwo
        ((Rule.mk "svc-a" (some awsDefaultRule) none false).Reconcile remoteUp listenerOne
          worldTwo).w ∧
    issued worldTwo
        ((Rule.mk "svc-a" (some awsDefaultRule) none false).Reconcile remoteUp listenerOne
          worldTwo).w = [] ∧
    ((Rule.mk "svc-a" (some awsDefaultRule) none false).Reconcile remoteUp listenerOne
          worldTwo).r.deleted = false ∧
    (false = false →
      ((Rule.mk "svc-a" (some awsDefaultRule) none false).Reconcile remoteUp listenerOne
          worldTwo).r.deleted = false) ∧
    (Rule.mk "svc-a" (some awsDefaultRule) none false).delete remoteUp worldTwo =
      { out := Outcome.ok, r := Rule.mk "svc-a" (some awsDefaultRule) none false, w := worldTwo } :=
  default_rule_never_deleted remoteUp listenerOne (Rule.mk "svc-a" (some awsDefaultRule) none false)
    worldTwo awsDefaultRule rfl rfl

/-- C6: when `DesiredRule` is a default rule, `Reconcile` makes no remote call,
returns nil, leaves the load balancer (so `LastRulePriority`), the events,
`deleted` and `DesiredRule` as they were, and afterwards `CurrentRule` is
`DesiredRule`, whatever `CurrentRule` was. -/
theorem Reconcile_adopt_default (env : Env) (l : Listener) (r : Rule) (w : World)
    (dr : ElbRule) (hD : r.DesiredRule = some dr) (hF : dr.IsDefault = some true) :
    issued w (r.Reconcile env l w).w = [] ∧
    (r.Reconcile env l w).out = Outcome.ok ∧
    (r.Reconcile env l w).w = w ∧
    (r.Reconcile env l w).w.lb.LastRulePriority = w.lb.LastRulePriority ∧
    (r.Reconcile env l w).r.deleted = r.deleted ∧
    (r.Reconcile env l w).r.DesiredRule = r.DesiredRule ∧
    (r.Reconcile env l w).r.CurrentRule = r.DesiredRule ∧
    (r.Reconcile env l w).r.CurrentRule = (r.Reconcile env l w).r.DesiredRule := by
  rw [Reconcile_adopt env l r w dr hD hF]
  refine ⟨issued_of_eq _ _ rfl, rfl, rfl, rfl, rfl, rfl, hD.symm, ?_⟩
  simp [hD]

/-- Witness of C6: the default rule built by `NewRule "/"`, nothing created yet. -/
theorem Reconcile_adopt_default_witness :
    (NewRule "/" "svc-a").DesiredRule =
      some ⟨[⟨none, some "forward"⟩], [], some true, some "default", none⟩ ∧
    ((NewRule "/" "svc-a").Reconcile remoteUp listenerOne worldTwo).out = Outcome.ok ∧
    ((NewRule "/" "svc-a").Reconcile remoteUp listenerOne worldTwo).r.CurrentRule =
      (NewRule "/" "svc-a").DesiredRule :=
  ⟨by decide,
   (Reconcile_adopt_default remoteUp listenerOne (NewRule "/" "svc-a") worldTwo
      ⟨[⟨none, some "forward"⟩], [], some true, some "default", none⟩
      (by decide) rfl).2.1,
   (Reconcile_adopt_default remoteUp listenerOne (NewRule "/" "svc-a") worldTwo
      ⟨[⟨none, some "forward"⟩], [], some true, some "default", none⟩
      (by decide) rfl).2.2.2.2.2.2.1⟩

/-- C7: with `DesiredRule` absent and `CurrentRule` present and not default,
if the remote `DeleteRule` succeeds then `Reconcile` makes exactly one remote
call, the `DeleteRule` on `CurrentRule.RuleArn`, sets `deleted`, and returns
no error: it returns nil when `CurrentRule.Priority` is set (the event message
dereferences it), and with a nil `Priority` it panics there, after the call. -/
theorem Reconcile_delete_transition (env : Env) (l : Listener) (r : Rule) (w : World)
    (cr : ElbRule) (u : Unit) (hD : r.DesiredRule = none) (hC : r.CurrentRule = some cr)
    (hF : cr.IsDefault = some false)
    (hresp : env.DeleteRule w.calls ⟨cr.RuleArn⟩ = Response.ok u) :
    issued w (r.Reconcile env l w).w = [Call.deleteRule ⟨cr.RuleArn⟩ (Response.ok u)] ∧
    (r.Reconcile env l w).r.deleted = true ∧
    (∀ e, (r.Reconcile env l w).out ≠ Outcome.error e) ∧
    (cr.Priority ≠ none → (r.Reconcile env l w).out = Outcome.ok) := by
  rw [Reconcile_delete_ok env l r w cr u hD hC hF hresp]
  cases hP : cr.Priority with
  | none =>
    refine ⟨issued_of_append _ _ _ rfl, rfl, ?_, ?_⟩
    · intro e h
      cases h
    · intro h
      exact absurd rfl h
  | some p =>
    refine ⟨issued_of_append _ _ _ rfl, rfl, ?_, fun _ => rfl⟩
    intro e h
    cases h

/-- Witness of C7: the scenario of the spec, current rule with priority "5". -/
theorem Reconcile_delete_transition_witness :
    issued worldTwo (ruleGone.Reconcile remoteUp listenerOne worldTwo).w =
      [Call.deleteRule ⟨some "arn:rule/5"⟩ (Response.ok ())] ∧
    (ruleGone.Reconcile remoteUp listenerOne worldTwo).r.deleted = true ∧
    (ruleGone.Reconcile remoteUp listenerOne worldTwo).out = Outcome.ok :=
  ⟨(Reconcile_delete_transition remoteUp listenerOne ruleGone worldTwo awsRuleFive ()
      rfl rfl rfl rfl).1,
   (Reconcile_delete_transition remoteUp listenerOne ruleGone worldTwo awsRuleFive ()
      rfl rfl rfl rfl).2.1,
   (Reconcile_delete_transition remoteUp listenerOne ruleGone worldTwo awsRuleFive ()
      rfl rfl rfl rfl).2.2.2 (by decide)⟩

/-- C4, as stated, fails: with the desired rule absent and a current rule that
is not default and has a nil `Priority`, a `DeleteRule` that fails does not
make `Reconcile` return the error: the warning event of `delete` dereferences
`Priority` first and panics. -/
theorem failed_delete_with_nil_priority_panics :
    ruleNoPriority.DesiredRule = none ∧
    (ruleNoPriority.CurrentRule.bind ElbRule.IsDefault) = some false ∧
    (ruleNoPriority.CurrentRule.bind ElbRule.Priority) = none ∧
    (∃ c ∈ issued worldTwo (ruleNoPriority.Reconcile remoteDown listenerOne worldTwo).w,
      c.failure = some ⟨"ServiceUnavailable"⟩) ∧
    (ruleNoPriority.Reconcile remoteDown listenerOne worldTwo).out =
      Outcome.panic Fault.nilDereference ∧
    (ruleNoPriority.Reconcile remoteDown listenerOne worldTwo).out ≠
      Outcome.error ⟨"ServiceUnavailable"⟩ := by
  decide

/-- C4, amended: when the remote call made by `Reconcile` fails with `e`,
`CurrentRule`, `deleted` and the load balancer (so `LastRulePriority`) are what
they were before, `Reconcile` does not return nil, the only error it can
return is `e`, and it does return `e` whenever `CurrentRule` is absent or has
its `Priority` set (the warning event of `delete` dereferences it; a failed
`CreateRule` always returns `e`, `CurrentRule` being absent then). -/
theorem Reconcile_remote_failure (env : Env) (l : Listener) (r : Rule) (w : World)
    (c : Call) (e : Err)
    (hc : c ∈ issued w (r.Reconcile env l w).w) (he : c.failure = some e) :
    (r.Reconcile env l w).r.CurrentRule = r.CurrentRule ∧
    (r.Reconcile env l w).r.deleted = r.deleted ∧
    (r.Reconcile env l w).w.lb.LastRulePriority = w.lb.LastRulePriority ∧
    (r.Reconcile env l w).w.lb = w.lb ∧
    (r.Reconcile env l w).out ≠ Outcome.ok ∧
    (∀ e2, (r.Reconcile env l w).out = Outcome.error e2 → e2 = e) ∧
    ((∀ cr, r.CurrentRule = some cr → cr.Priority ≠ none) →
      (r.Reconcile env l w).out = Outcome.error e) := by
  have hnil : ∀ s : Step, s.w.calls = w.calls → c ∈ issued w s.w → False := by
    intro s hs hm
    rw [issued_of_eq _ _ hs] at hm
    cases hm
  cases hD : r.DesiredRule with
  | none =>
    cases hC : r.CurrentRule with
    | none =>
      rw [Reconcile_absent_absent env l r w hD hC] at hc
      exact (hnil _ rfl hc).elim
    | some cr =>
      cases hF : cr.IsDefault with
      | none =>
        rw [Reconcile_absent_nilflag env l r w cr hD hC hF] at hc
        exact (hnil _ rfl hc).elim
      | some b =>
        cases b with
        | true =>
          rw [Reconcile_absent_default env l r w cr hD hC hF] at hc
          exact (hnil _ rfl hc).elim
        | false =>
          cases hresp : env.DeleteRule w.calls ⟨cr.RuleArn⟩ with
          | ok u =>
            rw [Reconcile_delete_ok env l r w cr u hD hC hF hresp] at hc
            have hi : c = Call.deleteRule ⟨cr.RuleArn⟩ (Response.ok u) := by
              cases hP : cr.Priority <;> rw [hP] at hc <;>
                simpa [World.record, World.Eventf, issued] using hc
            rw [hi] at he
            cases he
          | err e1 =>
            rw [Reconcile_delete_err env l r w cr e1 hD hC hF hresp] at hc ⊢
            have hi : c = Call.deleteRule ⟨cr.RuleArn⟩ (Response.err e1) := by
              cases hP : cr.Priority <;> rw [hP] at hc <;>
                simpa [World.record, World.Eventf, issued] using hc
            rw [hi] at he
            have hee : e1 = e := by simpa [Call.failure] using he
            subst hee
            cases hP : cr.Priority with
            | none =>
              refine ⟨hC, rfl, rfl, rfl, by simp, by simp, ?_⟩
              intro h
              exact absurd hP (h cr rfl)
            | some p =>
              exact ⟨hC, rfl, rfl, rfl, by simp, by simp, fun _ => rfl⟩
  | some dr =>
    cases hF : dr.IsDefault with
    | none =>
      rw [Reconcile_desired_nilflag env l r w dr hD hF] at hc
      exact (hnil _ rfl hc).elim
    | some b =>
      cases b with
      | true =>
        rw [Reconcile_adopt env l r w dr hD hF] at hc
        exact (hnil _ rfl hc).elim
      | false =>
        cases hC : r.CurrentRule with
        | some cr =>
          rw [Reconcile_present_present env l r w dr cr hD hF hC] at hc
          exfalso
          refine hnil _ ?_ hc
          split
          · rfl
          · cases cr.Priority <;> rfl
        | none =>
          cases hA : assignTargetGroup env w.lb r.SvcName dr.Actions with
          | error acts =>
            rw [Reconcile_create_panic env l r w dr acts hD hF hC hA] at hc
            exact (hnil _ rfl hc).elim
          | ok acts =>
            cases hresp : env.CreateRule w.calls
              ⟨acts, dr.Conditions, l.CurrentListener.ListenerArn, w.lb.LastRulePriority⟩ with
            | err e1 =>
              rw [Reconcile_create_err env l r w dr acts e1 hD hF hC hA hresp] at hc ⊢
              have hi : c = Call.createRule
                  ⟨acts, dr.Conditions, l.CurrentListener.ListenerArn, w.lb.LastRulePriority⟩
                  (Response.err e1) := by
                simpa [World.record, World.Eventf, issued] using hc
              rw [hi] at he
              have hee : e1 = e := by simpa [Call.failure] using he
              subst hee
              exact ⟨hC, rfl, rfl, rfl, by simp, by simp, fun _ => rfl⟩
            | ok o =>
              exfalso
              cases ho : o.Rules with
              | nil =>
                rw [Reconcile_create_empty env l r w dr acts o hD hF hC hA hresp ho] at hc
                have hi : c = Call.createRule
                    ⟨acts, dr.Conditions, l.CurrentListener.ListenerArn, w.lb.LastRulePriority⟩
                    (Response.ok o) := by
                  simpa [World.record, issued] using hc
                rw [hi] at he
                cases he
              | cons created more =>
                rw [Reconcile_create_ok env l r w dr acts o created more hD hF hC hA hresp ho]
                  at hc
                have hi : c = Call.createRule
                    ⟨acts, dr.Conditions, l.CurrentListener.ListenerArn, w.lb.LastRulePriority⟩
                    (Response.ok o) := by
                  cases hP : created.Priority <;> rw [hP] at hc <;>
                    simpa [issued] using hc
                rw [hi] at he
                cases he

/-- Witness of C4: the delete of the rule with priority "5" against a remote
API that rejects every call. -/
theorem Reconcile_remote_failure_witness :
    (ruleGone.Reconcile remoteDown listenerOne worldTwo).r.CurrentRule = ruleGone.CurrentRule ∧
    (ruleGone.Reconcile remoteDown listenerOne worldTwo).r.deleted = false ∧
    (ruleGone.Reconcile remoteDown listenerOne worldTwo).w.lb.LastRulePriority = 10 ∧
    (ruleGone.Reconcile remoteDown listenerOne worldTwo).out =
      Outcome.error ⟨"ServiceUnavailable"⟩ :=
  have h := Reconcile_remote_failure remoteDown listenerOne ruleGone worldTwo
    (Call.deleteRule ⟨some "arn:rule/5"⟩ (Response.err ⟨"ServiceUnavailable"⟩))
    ⟨"ServiceUnavailable"⟩ (by decide) rfl
  ⟨h.1, h.2.1, h.2.2.1, h.2.2.2.2.2.2 (by decide)⟩

/-- C5: in the create state (desired rule present and not default, current
rule absent) on a load balancer with at least one target group:
every `CreateRule` call that `Reconcile` makes carries the conditions of
`DesiredRule`, the ARN of the listener, and a first action whose
`TargetGroupArn` is that of `TargetGroups[i]` when `LookupBySvc` answers
`i >= 0` and that of `TargetGroups[0]` when it answers a negative index;
the call is made whenever `DesiredRule` has a first action and the index is
below the number of target groups, in particular in the not-found case; and
when the call succeeds `Reconcile` returns no error: it returns nil when the
output has a first rule with its `Priority` set, and panics otherwise. -/
theorem create_input_and_target_group (env : Env) (l : Listener) (r : Rule) (w : World)
    (dr : ElbRule) (hD : r.DesiredRule = some dr) (hF : dr.IsDefault = some false)
    (hC : r.CurrentRule = none) (hTG : w.lb.TargetGroups ≠ []) :
    (∀ inp resp, Call.createRule inp resp ∈ issued w (r.Reconcile env l w).w →
      inp.Conditions = dr.Conditions ∧
      inp.ListenerArn = l.CurrentListener.ListenerArn ∧
      (∀ (i : Nat) (tg : TargetGroup),
        env.LookupBySvc w.lb.TargetGroups r.SvcName = (i : Int) →
        w.lb.TargetGroups[i]? = some tg →
        inp.firstTargetGroupArn = some tg.CurrentTargetGroup.TargetGroupArn) ∧
      (env.LookupBySvc w.lb.TargetGroups r.SvcName < 0 →
        ∃ tg, w.lb.TargetGroups[0]? = some tg ∧
          inp.firstTargetGroupArn = some tg.CurrentTargetGroup.TargetGroupArn)) ∧
    (dr.Actions ≠ [] →
      env.LookupBySvc w.lb.TargetGroups r.SvcName < w.lb.TargetGroups.length →
      issuesCreate w (r.Reconcile env l w).w) ∧
    (dr.Actions ≠ [] → env.LookupBySvc w.lb.TargetGroups r.SvcName < 0 →
      issuesCreate w (r.Reconcile env l w).w) ∧
    (∀ inp o, Call.createRule inp (Response.ok o) ∈ issued w (r.Reconcile env l w).w →
      (∀ e, (r.Reconcile env l w).out ≠ Outcome.error e) ∧
      (o.Rules.head?.bind ElbRule.Priority ≠ none →
        (r.Reconcile env l w).out = Outcome.ok)) := by
  have hready : dr.Actions ≠ [] →
      env.LookupBySvc w.lb.TargetGroups r.SvcName < w.lb.TargetGroups.length →
      issuesCreate w (r.Reconcile env l w).w := by
    intro ha hl
    have hR : CreateReady env r w.lb := by
      refine ⟨hTG, ?_, hl⟩
      simpa [hD] using ha
    obtain ⟨acts, hA⟩ := (CreateReady_iff env r w.lb dr hD).mp hR
    rcases Reconcile_create_calls env l r w dr hD hF hC with
      ⟨acts2, hA2, -, -⟩ | ⟨acts2, -, hcalls⟩
    · rw [hA] at hA2
      cases hA2
    · rw [issuesCreate, issued_of_append _ _ _ hcalls]
      exact ⟨_, List.mem_singleton.mpr rfl, rfl⟩
  refine ⟨?_, hready, ?_, ?_⟩
  · intro inp resp hm
    rcases Reconcile_create_calls env l r w dr hD hF hC with ⟨acts, -, -, hw⟩ | ⟨acts, hA, hcalls⟩
    · rw [hw, issued_of_eq _ _ rfl] at hm
      cases hm
    · rw [issued_of_append _ _ _ hcalls] at hm
      have hi : inp = ⟨acts, dr.Conditions, l.CurrentListener.ListenerArn,
          w.lb.LastRulePriority⟩ := by
        simp only [List.mem_singleton] at hm
        injection hm with h1 _
      obtain ⟨a, rest, tg, -, hacts, hl⟩ := assignTargetGroup_ok env w.lb r.SvcName _ _ hA
      subst hi
      refine ⟨rfl, rfl, ?_, ?_⟩
      · intro i tg2 hi2 htg2
        rcases hl with ⟨hneg, -⟩ | ⟨-, htg⟩
        · omega
        · rw [hi2, Int.toNat_ofNat, htg2] at htg
          injection htg with htg
          subst htg
          simp [CreateRuleInput.firstTargetGroupArn, hacts]
      · intro hneg
        rcases hl with ⟨-, htg⟩ | ⟨hpos, -⟩
        · exact ⟨tg, htg, by simp [CreateRuleInput.firstTargetGroupArn, hacts]⟩
        · omega
  · intro ha hneg
    refine hready ha ?_
    have : (0 : Int) ≤ w.lb.TargetGroups.length := Int.ofNat_nonneg _
    omega
  · intro inp o hm
    cases hA : assignTargetGroup env w.lb r.SvcName dr.Actions with
    | error acts =>
      rw [Reconcile_create_panic env l r w dr acts hD hF hC hA, issued_of_eq _ _ rfl] at hm
      cases hm
    | ok acts =>
      cases hresp : env.CreateRule w.calls
        ⟨acts, dr.Conditions, l.CurrentListener.ListenerArn, w.lb.LastRulePriority⟩ with
      | err e1 =>
        rw [Reconcile_create_err env l r w dr acts e1 hD hF hC hA hresp] at hm
        simp [World.record, World.Eventf, issued] at hm
      | ok o1 =>
        cases ho : o1.Rules with
        | nil =>
          rw [Reconcile_create_empty env l r w dr acts o1 hD hF hC hA hresp ho] at hm ⊢
          have ho1 : o = o1 := by
            have := hm
            simp [World.record, issued] at this
            exact this.2
          subst ho1
          refine ⟨(fun e h => by cases h), ?_⟩
          intro h
          simp [ho] at h
        | cons created more =>
          rw [Reconcile_create_ok env l r w dr acts o1 created more hD hF hC hA hresp ho] at hm ⊢
          cases hP : created.Priority with
          | none =>
            rw [hP] at hm
            have ho1 : o = o1 := by
              have := hm
              simp [issued] at this
              exact this.2
            subst ho1
            refine ⟨(fun e h => by cases h), ?_⟩
            intro h
            simp [ho, hP] at h
          | some p =>
            exact ⟨(fun e h => by cases h), fun _ => rfl⟩

/-- Witness of C5: service `svc-c` has no target group on `lbTwo`; the rule is
created all the same and forwards to `tg1`, the first target group. -/
theorem create_input_and_target_group_witness :
    issued worldTwo (ruleStray.Reconcile remoteUp listenerOne worldTwo).w =
      [Call.createRule
        ⟨[⟨some "tg1", some "forward"⟩], [⟨some "path-pattern", [some "/shop"]⟩],
          some "arn:listener/1", 10⟩
        (Response.ok ⟨[⟨[⟨some "tg1", some "forward"⟩],
          [⟨some "path-pattern", [some "/shop"]⟩], some false, some "assigned",
          some "arn:rule/new"⟩]⟩)] ∧
    issuesCreate worldTwo (ruleStray.Reconcile remoteUp listenerOne worldTwo).w ∧
    (ruleStray.Reconcile remoteUp listenerOne worldTwo).out = Outcome.ok :=
  have h := create_input_and_target_group remoteUp listenerOne ruleStray worldTwo
    ⟨[⟨none, some "forward"⟩], [⟨some "path-pattern", [some "/shop"]⟩], some false, none, none⟩
    (by decide) rfl rfl (by decide)
  ⟨by decide, h.2.2.1 (by decide) (by decide),
   (h.2.2.2 _ _ (by decide : Call.createRule
        ⟨[⟨some "tg1", some "forward"⟩], [⟨some "path-pattern", [some "/shop"]⟩],
          some "arn:listener/1", 10⟩
        (Response.ok ⟨[⟨[⟨some "tg1", some "forward"⟩],
          [⟨some "path-pattern", [some "/shop"]⟩], some false, some "assigned",
          some "arn:rule/new"⟩]⟩) ∈
        issued worldTwo (ruleStray.Reconcile remoteUp listenerOne worldTwo).w)).2 (by decide)⟩

/-! ### Sequences of creates -/

theorem wrap64_of_range (x : Int) (hlo : -2 ^ 63 ≤ x) (hhi : x < 2 ^ 63) : wrap64 x = x := by
  unfold wrap64
  norm_num at hlo hhi ⊢
  omega

theorem createPriorities_append (xs ys : List Call) :
    createPriorities (xs ++ ys) = createPriorities xs ++ createPriorities ys := by
  induction xs with
  | nil => rfl
  | cons c cs ih =>
    cases c with
    | createRule inp resp => simp [createPriorities, ih]
    | deleteRule inp resp => simp [createPriorities, ih]

/-- A create that returns nil has sent exactly one `CreateRule`, with the
allocator value of before the call as its priority, and has advanced the
allocator by one (in `int64`). -/
theorem Reconcile_create_success (env : Env) (l : Listener) (r : Rule) (w : World)
    (hS : r.inCreateState) (hok : (r.Reconcile env l w).out = Outcome.ok) :
    ∃ inp resp, (r.Reconcile env l w).w.calls = w.calls ++ [Call.createRule inp resp] ∧
      inp.Priority = w.lb.LastRulePriority ∧
      (r.Reconcile env l w).w.lb.LastRulePriority = wrap64 (w.lb.LastRulePriority + 1) := by
  obtain ⟨hC, hDF⟩ := hS
  cases hD : r.DesiredRule with
  | none => simp [hD] at hDF
  | some dr =>
    have hF : dr.IsDefault = some false := by simpa [hD] using hDF
    cases hA : assignTargetGroup env w.lb r.SvcName dr.Actions with
    | error acts =>
      rw [Reconcile_create_panic env l r w dr acts hD hF hC hA] at hok
      cases hok
    | ok acts =>
      cases hresp : env.CreateRule w.calls
        ⟨acts, dr.Conditions, l.CurrentListener.ListenerArn, w.lb.LastRulePriority⟩ with
      | err e1 =>
        rw [Reconcile_create_err env l r w dr acts e1 hD hF hC hA hresp] at hok
        cases hok
      | ok o =>
        cases ho : o.Rules with
        | nil =>
          rw [Reconcile_create_empty env l r w dr acts o hD hF hC hA hresp ho] at hok
          cases hok
        | cons created more =>
          rw [Reconcile_create_ok env l r w dr acts o created more hD hF hC hA hresp ho] at hok ⊢
          cases hP : created.Priority with
          | none =>
            rw [hP] at hok
            cases hok
          | some p => exact ⟨_, _, rfl, rfl, rfl⟩

/-- The trace and the allocator after a run of successful creates. -/
theorem worldAfter_creates (env : Env) (l : Listener) (rs : List Rule) :
    ∀ w : World, (∀ r ∈ rs, r.inCreateState) →
      (∀ s ∈ ReconcileAll env l rs w, s.out = Outcome.ok) →
      -2 ^ 63 ≤ w.lb.LastRulePriority → w.lb.LastRulePriority + rs.length < 2 ^ 63 →
      ∃ new, (worldAfter env l rs w).calls = w.calls ++ new ∧
        new.length = rs.length ∧ (∀ c ∈ new, c.isCreate = true) ∧
        createPriorities new =
          (List.range rs.length).map (fun (k : Nat) => w.lb.LastRulePriority + (k : Int)) ∧
        (worldAfter env l rs w).lb.LastRulePriority = w.lb.LastRulePriority + rs.length := by
  induction rs with
  | nil =>
    intro w _ _ _ _
    exact ⟨[], by simp [worldAfter], rfl, by simp, rfl, by simp [worldAfter]⟩
  | cons r rs ih =>
    intro w hS hok hlo hhi
    have hhi2 : w.lb.LastRulePriority + ((rs.length : Int) + 1) < 2 ^ 63 := by
      simpa using hhi
    obtain ⟨inp, resp, hcalls, hprio, hnext⟩ :=
      Reconcile_create_success env l r w (hS r (List.mem_cons_self _ _))
        (hok _ (by simp [ReconcileAll]))
    have hw : wrap64 (w.lb.LastRulePriority + 1) = w.lb.LastRulePriority + 1 := by
      apply wrap64_of_range
      · have : (0 : Int) ≤ rs.length := Int.ofNat_nonneg _
        omega
      · have : (0 : Int) ≤ rs.length := Int.ofNat_nonneg _
        omega
    rw [hw] at hnext
    obtain ⟨new, hnew, hlen, hall, hprios, hfinal⟩ :=
      ih (r.Reconcile env l w).w (fun q hq => hS q (List.mem_cons_of_mem _ hq))
        (fun s hs => hok s (by simp [ReconcileAll, hs]))
        (by rw [hnext]; omega) (by rw [hnext]; omega)
    refine ⟨Call.createRule inp resp :: new, ?_, by simp [hlen], ?_, ?_, ?_⟩
    · simp [worldAfter, hnew, hcalls]
    · intro c hc
      rcases List.mem_cons.mp hc with h | h
      · rw [h]
        rfl
      · exact hall c h
    · simp only [createPriorities, hprios, hprio, hnext, List.length_cons, List.range_succ_eq_map,
        List.map_cons, List.map_map]
      refine congrArg₂ _ (by simp) ?_
      apply List.map_congr_left
      intro k _
      simp only [Function.comp, Nat.succ_eq_add_one]
      push_cast
      ring
    · simp only [worldAfter, hfinal, hnext, List.length_cons]
      push_cast
      ring

/-! ### The claims, continued -/

/-- C3, as stated, fails: with the allocator at 10 the single create is sent
with priority 10, not 11; the allocator is 11 only after the call. -/
theorem single_create_sends_allocator_value :
    worldTwo.lb.LastRulePriority = 10 ∧ ruleApi.inCreateState ∧
    (ruleApi.Reconcile remoteUp listenerOne worldTwo).out = Outcome.ok ∧
    createPriorities (issued worldTwo (ruleApi.Reconcile remoteUp listenerOne worldTwo).w) =
      [10] ∧
    createPriorities (issued worldTwo (ruleApi.Reconcile remoteUp listenerOne worldTwo).w) ≠
      [10 + 1] ∧
    (ruleApi.Reconcile remoteUp listenerOne worldTwo).w.lb.LastRulePriority = 11 := by
  decide

/-- C3, amended: N sequential successful creates against one load balancer
whose allocator starts at P (with `P + N` inside `int64`) make exactly N
remote calls, all `CreateRule`, whose priorities are P, P+1, ..., P+N-1 in
call order, each used once, and leave the allocator at P+N. -/
theorem sequential_creates_priorities (env : Env) (l : Listener) (rs : List Rule) (w : World)
    (hS : ∀ r ∈ rs, r.inCreateState)
    (hok : ∀ s ∈ ReconcileAll env l rs w, s.out = Outcome.ok)
    (hlo : -2 ^ 63 ≤ w.lb.LastRulePriority)
    (hhi : w.lb.LastRulePriority + rs.length < 2 ^ 63) :
    (issued w (worldAfter env l rs w)).length = rs.length ∧
    (∀ c ∈ issued w (worldAfter env l rs w), c.isCreate = true) ∧
    createPriorities (issued w (worldAfter env l rs w)) =
      (List.range rs.length).map (fun (k : Nat) => w.lb.LastRulePriority + (k : Int)) ∧
    (createPriorities (issued w (worldAfter env l rs w))).Nodup ∧
    (worldAfter env l rs w).lb.LastRulePriority = w.lb.LastRulePriority + rs.length := by
  obtain ⟨new, hnew, hlen, hall, hprios, hfinal⟩ := worldAfter_creates env l rs w hS hok hlo hhi
  rw [issued_of_append _ _ _ hnew]
  refine ⟨hlen, hall, hprios, ?_, hfinal⟩
  rw [hprios]
  refine List.Nodup.map ?_ (List.nodup_range _)
  intro a b hab
  have : (a : Int) = b := by
    have h : w.lb.LastRulePriority + (a : Int) = w.lb.LastRulePriority + (b : Int) := hab
    omega
  exact_mod_cast this

/-- Witness of C3, amended: two creates with the allocator at 10 are sent with
the priorities 10 and 11. -/
theorem sequential_creates_priorities_witness :
    createPriorities (issued worldTwo (worldAfter remoteUp listenerOne [ruleApi, ruleImg] worldTwo)) =
      [10, 11] ∧
    (worldAfter remoteUp listenerOne [ruleApi, ruleImg] worldTwo).lb.LastRulePriority = 12 :=
  have h := sequential_creates_priorities remoteUp listenerOne [ruleApi, ruleImg] worldTwo
    (by decide) (by decide) (by decide) (by decide)
  ⟨h.2.2.1, h.2.2.2.2⟩

/-- C8, as stated, fails: the desired default rule and the current default rule
have equal conditions, so the comparator reports no difference, and yet
`Reconcile` replaces `CurrentRule` by `DesiredRule`: the `RuleArn` known from
AWS is gone afterwards. -/
theorem adopt_default_overwrites_current :
    ruleDefaultBoth.CurrentRule = some awsDefaultRule ∧
    ruleDefaultBoth.DesiredRule.isSome = true ∧
    ruleDefaultBoth.needsModification = Except.ok false ∧
    issued worldTwo (ruleDefaultBoth.Reconcile remoteUp listenerOne worldTwo).w = [] ∧
    (ruleDefaultBoth.Reconcile remoteUp listenerOne worldTwo).r.CurrentRule ≠
      ruleDefaultBoth.CurrentRule ∧
    ruleDefaultBoth.CurrentRule.bind ElbRule.RuleArn = some "arn:rule/default" ∧
    (ruleDefaultBoth.Reconcile remoteUp listenerOne worldTwo).r.CurrentRule.bind
      ElbRule.RuleArn = none := by
  refine ⟨rfl, rfl, rfl, by decide, by decide, rfl, rfl⟩

/-- C8, amended: with both rules present and no difference reported by the
comparator, `Reconcile` makes no remote call and leaves the world as it was;
it leaves `CurrentRule` unchanged unless `DesiredRule.IsDefault` is true, and
then `CurrentRule` becomes `DesiredRule`. -/
theorem Reconcile_idempotent (env : Env) (l : Listener) (r : Rule) (w : World)
    (cr dr : ElbRule) (hC : r.CurrentRule = some cr) (hD : r.DesiredRule = some dr)
    (hN : r.needsModification = Except.ok false) :
    issued w (r.Reconcile env l w).w = [] ∧
    (r.Reconcile env l w).w = w ∧
    (dr.IsDefault ≠ some true → (r.Reconcile env l w).r = r) ∧
    (dr.IsDefault = some false → (r.Reconcile env l w).out = Outcome.ok) ∧
    (dr.IsDefault = some true →
      (r.Reconcile env l w).out = Outcome.ok ∧
      (r.Reconcile env l w).r.CurrentRule = r.DesiredRule) := by
  have hcond : cr.Conditions = dr.Conditions := by
    simp only [Rule.needsModification, hC, hD, prettifyDiffers] at hN
    by_contra hne
    have : (cr.Conditions != dr.Conditions) = true := by simpa using hne
    simp [this] at hN
  cases hF : dr.IsDefault with
  | none =>
    rw [Reconcile_desired_nilflag env l r w dr hD hF]
    exact ⟨issued_of_eq _ _ rfl, rfl, fun _ => rfl, by simp, by simp⟩
  | some b =>
    cases b with
    | true =>
      rw [Reconcile_adopt env l r w dr hD hF]
      exact ⟨issued_of_eq _ _ rfl, rfl, by simp, by simp, fun _ => ⟨rfl, hD.symm⟩⟩
    | false =>
      rw [Reconcile_present_present env l r w dr cr hD hF hC, if_pos hcond]
      exact ⟨issued_of_eq _ _ rfl, rfl, fun _ => rfl, fun _ => rfl, by simp⟩

/-- Witness of C8, amended: current and desired rule for `/api`, not default. -/
theorem Reconcile_idempotent_witness :
    issued worldTwo (ruleSettled.Reconcile remoteUp listenerOne worldTwo).w = [] ∧
    (ruleSettled.Reconcile remoteUp listenerOne worldTwo).r = ruleSettled :=
  have h := Reconcile_idempotent remoteUp listenerOne ruleSettled worldTwo awsRuleFive
    ⟨[⟨none, some "forward"⟩], [⟨some "path-pattern", [some "/api"]⟩], some false, none, none⟩
    rfl (by decide) rfl
  ⟨h.1, h.2.2.1 (by decide)⟩

/-- C9: with `DesiredRule` present, `needsModification` returns a boolean, and
it returns true exactly when `CurrentRule` is absent or its conditions differ
from those of `DesiredRule`; so two rules that agree on the presence of
`CurrentRule` and on the two condition lists get the same answer, whatever
their priorities, actions, ARNs and default flags. -/
theorem needsModification_iff (r : Rule) (dr : ElbRule) (hD : r.DesiredRule = some dr) :
    (r.needsModification = Except.ok true ∨ r.needsModification = Except.ok false) ∧
    (r.needsModification = Except.ok true ↔
      r.CurrentRule = none ∨ ∃ cr, r.CurrentRule = some cr ∧ cr.Conditions ≠ dr.Conditions) ∧
    (∀ (r2 : Rule) (dr2 : ElbRule), r2.DesiredRule = some dr2 →
      dr2.Conditions = dr.Conditions →
      r2.CurrentRule.map ElbRule.Conditions = r.CurrentRule.map ElbRule.Conditions →
      r2.needsModification = r.needsModification) := by
  refine ⟨?_, ?_, ?_⟩
  · cases hC : r.CurrentRule with
    | none => simp [Rule.needsModification, hC]
    | some cr =>
      simp only [Rule.needsModification, hC, hD]
      split
      · exact Or.inl rfl
      · exact Or.inr rfl
  · cases hC : r.CurrentRule with
    | none => simp [Rule.needsModification, hC]
    | some cr =>
      simp only [Rule.needsModification, hC, hD, prettifyDiffers]
      by_cases h : cr.Conditions = dr.Conditions
      · simp [h]
      · have hb : (cr.Conditions != dr.Conditions) = true := by simpa using h
        simp [hb, h]
  · intro r2 dr2 hD2 hcond hcur
    cases hC : r.CurrentRule with
    | none =>
      have hC2 : r2.CurrentRule = none := by simpa [hC] using hcur
      simp [Rule.needsModification, hC, hC2]
    | some cr =>
      cases hC2 : r2.CurrentRule with
      | none => simp [hC, hC2] at hcur
      | some cr2 =>
        have hcc : cr2.Conditions = cr.Conditions := by simpa [hC, hC2] using hcur
        simp only [Rule.needsModification, hC, hC2, hD, hD2, hcc, hcond]

/-- Witness of C9: the rule for `/api` before anything is created needs
modification, the settled one does not. -/
theorem needsModification_iff_witness :
    ruleApi.needsModification = Except.ok true ∧
    ¬ (ruleSettled.needsModification = Except.ok true) :=
  ⟨(needsModification_iff ruleApi
      ⟨[⟨none, some "forward"⟩], [⟨some "path-pattern", [some "/api"]⟩], some false, none, none⟩
      (by decide)).2.1.mpr (Or.inl rfl),
   fun h => by
    have h2 := (needsModification_iff ruleSettled
      ⟨[⟨none, some "forward"⟩], [⟨some "path-pattern", [some "/api"]⟩], some false, none, none⟩
      (by decide)).2.1.mp h
    revert h2
    decide⟩

/-- C10: `r.Equals(t)` is true exactly when `r.CurrentRule` and `t` are both
present with equal `IsDefault` and equal conditions; it is false when both are
absent; and it does not look at anything else: rules that agree on presence,
`IsDefault` and conditions get the same answer, whatever their priorities,
actions and ARNs. -/
theorem Equals_iff (r : Rule) (t : Option ElbRule) :
    (r.Equals t = true ↔
      ∃ cr tr, r.CurrentRule = some cr ∧ t = some tr ∧
        cr.IsDefault = tr.IsDefault ∧ cr.Conditions = tr.Conditions) ∧
    (r.CurrentRule = none → t = none → r.Equals t = false) ∧
    (∀ (r2 : Rule) (t2 : Option ElbRule),
      r2.CurrentRule.map (fun x => (x.IsDefault, x.Conditions)) =
        r.CurrentRule.map (fun x => (x.IsDefault, x.Conditions)) →
      t2.map (fun x => (x.IsDefault, x.Conditions)) =
        t.map (fun x => (x.IsDefault, x.Conditions)) →
      r2.Equals t2 = r.Equals t) := by
  have main : ∀ (q : Rule) (u : Option ElbRule), (q.Equals u = true ↔
      ∃ cr tr, q.CurrentRule = some cr ∧ u = some tr ∧
        cr.IsDefault = tr.IsDefault ∧ cr.Conditions = tr.Conditions) := by
    intro q u
    cases hC : q.CurrentRule with
    | none => cases u <;> simp [Rule.Equals, hC]
    | some cr =>
      cases u with
      | none => simp [Rule.Equals, hC]
      | some tr =>
        simp only [Rule.Equals, hC, deepEqualFlag, deepEqualConditions]
        by_cases h1 : cr.IsDefault = tr.IsDefault
        · by_cases h2 : cr.Conditions = tr.Conditions
          · simp [h1, h2]
          · simp [h1, h2]
        · simp [h1]
  refine ⟨main r t, ?_, ?_⟩
  · intro hC ht
    subst ht
    simp [Rule.Equals, hC]
  · intro r2 t2 h1 h2
    have hiff : r2.Equals t2 = true ↔ r.Equals t = true := by
      rw [main r2 t2, main r t]
      constructor
      · rintro ⟨cr, tr, hc, ht, hf, hcs⟩
        subst ht
        rw [hc] at h1
        cases hC : r.CurrentRule with
        | none => simp [hC] at h1
        | some cr0 =>
          cases t with
          | none => simp at h2
          | some tr0 =>
            simp only [hC, Option.map_some', Option.some.injEq, Prod.mk.injEq] at h1 h2
            exact ⟨cr0, tr0, rfl, rfl, by rw [← h1.1, hf, h2.1], by rw [← h1.2, hcs, h2.2]⟩
      · rintro ⟨cr, tr, hc, ht, hf, hcs⟩
        subst ht
        rw [hc] at h1
        cases hC : r2.CurrentRule with
        | none => simp [hC] at h1
        | some cr0 =>
          cases t2 with
          | none => simp at h2
          | some tr0 =>
            simp only [hC, Option.map_some', Option.some.injEq, Prod.mk.injEq] at h1 h2
            exact ⟨cr0, tr0, rfl, rfl, by rw [h1.1, hf, ← h2.1], by rw [h1.2, hcs, ← h2.2]⟩
    cases h : r.Equals t <;> cases h' : r2.Equals t2 <;> simp_all

/-! ### The claims C11 to C20 -/

/-- C11: `NewRule(path, svcName, logger)` returns a rule with `SvcName`
`svcName`, no current rule, `deleted` false, and a desired rule with exactly
one action, of type "forward" (its `TargetGroupArn` and the rule's `RuleArn`
are nil).  The desired rule is default exactly when `path` is "" or "/"; then
its priority is "default" and it has no conditions; otherwise `IsDefault` is
false and the conditions are the single condition `path-pattern = [path]`. -/
theorem NewRule_spec (path svcName : String) :
    (NewRule path svcName).SvcName = svcName ∧
    (NewRule path svcName).CurrentRule = none ∧
    (NewRule path svcName).deleted = false ∧
    ∃ dr, (NewRule path svcName).DesiredRule = some dr ∧
      dr.Actions = [⟨none, some "forward"⟩] ∧
      dr.RuleArn = none ∧
      (dr.IsDefault = some true ↔ path = "" ∨ path = "/") ∧
      (path = "" ∨ path = "/" → dr.Priority = some "default" ∧ dr.Conditions = []) ∧
      (¬ (path = "" ∨ path = "/") →
        dr.IsDefault = some false ∧
        dr.Conditions = [⟨some "path-pattern", [some path]⟩]) := by
  refine ⟨rfl, rfl, rfl, ?_⟩
  by_cases h : path = "/" ∨ path = ""
  · refine ⟨⟨[⟨none, some "forward"⟩], [], some true, some "default", none⟩,
      by simp only [NewRule, h, if_true], rfl, rfl, ?_, ?_, ?_⟩
    · simp only [true_iff]
      exact h.symm
    · intro _
      exact ⟨rfl, rfl⟩
    · intro hn
      exact absurd h.symm hn
  · refine ⟨⟨[⟨none, some "forward"⟩], [⟨some "path-pattern", [some path]⟩], some false,
      none, none⟩, by simp only [NewRule, h, if_false], rfl, rfl, ?_, ?_, ?_⟩
    · constructor
      · intro hc
        cases hc
      · intro hp
        exact absurd hp.symm h
    · intro hp
      exact absurd hp.symm h
    · intro _
      exact ⟨rfl, rfl⟩

/-- C16: with `CurrentRule` absent, a direct `delete` makes no call, returns
nil and changes nothing; and when `DesiredRule` is absent as well, `Reconcile`
makes no remote call, returns nil and leaves the rule and the world (so
`LastRulePriority`) as they were. -/
theorem delete_of_absent_rule (env : Env) (l : Listener) (r : Rule) (w : World)
    (hC : r.CurrentRule = none) :
    r.delete env w = { out := Outcome.ok, r := r, w := w } ∧
    (r.DesiredRule = none →
      r.Reconcile env l w = { out := Outcome.ok, r := r, w := w } ∧
      issued w (r.Reconcile env l w).w = [] ∧
      (r.Reconcile env l w).r.CurrentRule = r.CurrentRule ∧
      (r.Reconcile env l w).r.deleted = r.deleted ∧
      (r.Reconcile env l w).w.lb.LastRulePriority = w.lb.LastRulePriority) := by
  refine ⟨by simp only [Rule.delete, hC], ?_⟩
  intro hD
  rw [Reconcile_absent_absent env l r w hD hC]
  exact ⟨rfl, issued_of_eq _ _ rfl, rfl, rfl, rfl⟩

/-- Witness of C16: a rule with neither a current nor a desired rule. -/
theorem delete_of_absent_rule_witness :
    (Rule.mk "svc-a" none none false).delete remoteUp worldTwo =
      { out := Outcome.ok, r := Rule.mk "svc-a" none none false, w := worldTwo } ∧
    (Rule.mk "svc-a" none none false).Reconcile remoteUp listenerOne worldTwo =
      { out := Outcome.ok, r := Rule.mk "svc-a" none none false, w := worldTwo } :=
  have h := delete_of_absent_rule remoteUp listenerOne (Rule.mk "svc-a" none none false)
    worldTwo rfl
  ⟨h.1, (h.2 rfl).1⟩

/-- C19: with `DesiredRule` absent and `CurrentRule` present and not default,
a `Reconcile` whose `DeleteRule` succeeds sets `deleted` but leaves
`CurrentRule` as it was, so a second `Reconcile` on the resulting rule makes a
second `DeleteRule` call on the same `RuleArn`: two calls after two
reconciliations. -/
theorem repeated_delete_calls_twice (env : Env) (l : Listener) (r : Rule) (w : World)
    (cr : ElbRule) (u : Unit) (hD : r.DesiredRule = none) (hC : r.CurrentRule = some cr)
    (hF : cr.IsDefault = some false)
    (hresp : env.DeleteRule w.calls ⟨cr.RuleArn⟩ = Response.ok u) :
    (r.Reconcile env l w).r.deleted = true ∧
    (r.Reconcile env l w).r.CurrentRule = r.CurrentRule ∧
    (r.Reconcile env l w).r.DesiredRule = none ∧
    (cr.Priority ≠ none → (r.Reconcile env l w).out = Outcome.ok) ∧
    issued w (r.Reconcile env l w).w = [Call.deleteRule ⟨cr.RuleArn⟩ (Response.ok u)] ∧
    issued (r.Reconcile env l w).w
        ((r.Reconcile env l w).r.Reconcile env l (r.Reconcile env l w).w).w =
      [Call.deleteRule ⟨cr.RuleArn⟩
        (env.DeleteRule (r.Reconcile env l w).w.calls ⟨cr.RuleArn⟩)] ∧
    issued w ((r.Reconcile env l w).r.Reconcile env l (r.Reconcile env l w).w).w =
      [Call.deleteRule ⟨cr.RuleArn⟩ (Response.ok u),
       Call.deleteRule ⟨cr.RuleArn⟩
        (env.DeleteRule (r.Reconcile env l w).w.calls ⟨cr.RuleArn⟩)] := by
  have h1 : (r.Reconcile env l w).r = { r with deleted := true } ∧
      (r.Reconcile env l w).w.calls =
        w.calls ++ [Call.deleteRule ⟨cr.RuleArn⟩ (Response.ok u)] ∧
      (cr.Priority ≠ none → (r.Reconcile env l w).out = Outcome.ok) := by
    rw [Reconcile_delete_ok env l r w cr u hD hC hF hresp]
    cases hP : cr.Priority with
    | none => exact ⟨rfl, rfl, fun h => absurd rfl h⟩
    | some p => exact ⟨rfl, rfl, fun _ => rfl⟩
  obtain ⟨hr, hcalls, hout⟩ := h1
  have hD2 : (r.Reconcile env l w).r.DesiredRule = none := by rw [hr]; exact hD
  have hC2 : (r.Reconcile env l w).r.CurrentRule = some cr := by rw [hr]; exact hC
  have h2 : ((r.Reconcile env l w).r.Reconcile env l (r.Reconcile env l w).w).w.calls =
      (r.Reconcile env l w).w.calls ++ [Call.deleteRule ⟨cr.RuleArn⟩
        (env.DeleteRule (r.Reconcile env l w).w.calls ⟨cr.RuleArn⟩)] := by
    cases hresp2 : env.DeleteRule (r.Reconcile env l w).w.calls ⟨cr.RuleArn⟩ with
    | ok u2 =>
      rw [Reconcile_delete_ok env l _ _ cr u2 hD2 hC2 hF hresp2]
      cases cr.Priority <;> rfl
    | err e =>
      rw [Reconcile_delete_err env l _ _ cr e hD2 hC2 hF hresp2]
      cases cr.Priority <;> rfl
  refine ⟨by rw [hr], by rw [hC2, hC], hD2, hout, issued_of_append _ _ _ hcalls,
    issued_of_append _ _ _ h2, ?_⟩
  apply issued_of_append
  rw [h2, hcalls]
  simp

/-- Witness of C19: the rule with priority "5" reconciled twice with the
desired rule absent. -/
theorem repeated_delete_calls_twice_witness :
    (ruleGone.Reconcile remoteUp listenerOne worldTwo).r.deleted = true ∧
    (ruleGone.Reconcile remoteUp listenerOne worldTwo).r.CurrentRule = some awsRuleFive ∧
    issued worldTwo
        ((ruleGone.Reconcile remoteUp listenerOne worldTwo).r.Reconcile remoteUp listenerOne
          (ruleGone.Reconcile remoteUp listenerOne worldTwo).w).w =
      [Call.deleteRule ⟨some "arn:rule/5"⟩ (Response.ok ()),
       Call.deleteRule ⟨some "arn:rule/5"⟩ (Response.ok ())] :=
  have h := repeated_delete_calls_twice remoteUp listenerOne ruleGone worldTwo awsRuleFive ()
    rfl rfl rfl rfl
  ⟨h.1, h.2.1, h.2.2.2.2.2.2⟩

/-! ### Every effect of `Reconcile` -/

/-- The six ways a run of `Reconcile` can go, with what each leaves behind:
(A) rule, trace and load balancer untouched (no-op, modify, a panic on a nil
flag); (B) adopt-default; (C) one `DeleteRule` call; (D) a panic in `create`
before the remote call; (E) one `CreateRule` call that failed or came back
without a rule; (F) one `CreateRule` call that came back with a rule. -/
theorem Reconcile_effect (env : Env) (l : Listener) (r : Rule) (w : World) :
    ((r.Reconcile env l w).r = r ∧ (r.Reconcile env l w).w.calls = w.calls ∧
      (r.Reconcile env l w).w.lb = w.lb) ∨
    (∃ dr, r.DesiredRule = some dr ∧ dr.IsDefault = some true ∧
      r.Reconcile env l w =
        { out := Outcome.ok, r := { r with CurrentRule := some dr }, w := w }) ∨
    (∃ cr, r.DesiredRule = none ∧ r.CurrentRule = some cr ∧ cr.IsDefault = some false ∧
      (r.Reconcile env l w).w.calls = w.calls ++
        [Call.deleteRule ⟨cr.RuleArn⟩ (env.DeleteRule w.calls ⟨cr.RuleArn⟩)] ∧
      (r.Reconcile env l w).w.lb = w.lb ∧
      ((∃ u, env.DeleteRule w.calls ⟨cr.RuleArn⟩ = Response.ok u ∧
          (r.Reconcile env l w).r = { r with deleted := true }) ∨
       (∃ e, env.DeleteRule w.calls ⟨cr.RuleArn⟩ = Response.err e ∧
          (r.Reconcile env l w).r = r))) ∨
    (∃ dr acts, r.DesiredRule = some dr ∧ dr.IsDefault = some false ∧ r.CurrentRule = none ∧
      assignTargetGroup env w.lb r.SvcName dr.Actions = .error acts ∧
      r.Reconcile env l w =
        { out := Outcome.panic Fault.indexOutOfRange
          r := { r with DesiredRule := some { dr with Actions := acts } }
          w := w }) ∨
    (∃ dr acts, r.DesiredRule = some dr ∧ dr.IsDefault = some false ∧ r.CurrentRule = none ∧
      assignTargetGroup env w.lb r.SvcName dr.Actions = .ok acts ∧
      (r.Reconcile env l w).w.calls = w.calls ++ [Call.createRule
        ⟨acts, dr.Conditions, l.CurrentListener.ListenerArn, w.lb.LastRulePriority⟩
        (env.CreateRule w.calls
          ⟨acts, dr.Conditions, l.CurrentListener.ListenerArn, w.lb.LastRulePriority⟩)] ∧
      (r.Reconcile env l w).w.lb = w.lb ∧
      (r.Reconcile env l w).r = { r with DesiredRule := some { dr with Actions := acts } } ∧
      ((∃ e, env.CreateRule w.calls
          ⟨acts, dr.Conditions, l.CurrentListener.ListenerArn, w.lb.LastRulePriority⟩ =
            Response.err e ∧ (r.Reconcile env l w).out = Outcome.error e) ∨
       (∃ o, env.CreateRule w.calls
          ⟨acts, dr.Conditions, l.CurrentListener.ListenerArn, w.lb.LastRulePriority⟩ =
            Response.ok o ∧ o.Rules = [] ∧
          (r.Reconcile env l w).out = Outcome.panic Fault.indexOutOfRange))) ∨
    (∃ dr acts o created more, r.DesiredRule = some dr ∧ dr.IsDefault = some false ∧
      r.CurrentRule = none ∧
      assignTargetGroup env w.lb r.SvcName dr.Actions = .ok acts ∧
      env.CreateRule w.calls
          ⟨acts, dr.Conditions, l.CurrentListener.ListenerArn, w.lb.LastRulePriority⟩ =
        Response.ok o ∧
      o.Rules = created :: more ∧
      (r.Reconcile env l w).w.calls = w.calls ++ [Call.createRule
        ⟨acts, dr.Conditions, l.CurrentListener.ListenerArn, w.lb.LastRulePriority⟩
        (Response.ok o)] ∧
      (r.Reconcile env l w).w.lb =
        { w.lb with LastRulePriority := wrap64 (w.lb.LastRulePriority + 1) } ∧
      (r.Reconcile env l w).r =
        { r with
          CurrentRule := some created
          DesiredRule := some { dr with Actions := acts } } ∧
      ((r.Reconcile env l w).out = Outcome.ok ↔ created.Priority ≠ none) ∧
      (∀ e, (r.Reconcile env l w).out ≠ Outcome.error e)) := by
  rcases Option.eq_none_or_eq_some r.DesiredRule with hD | ⟨dr, hD⟩
  · rcases Option.eq_none_or_eq_some r.CurrentRule with hC | ⟨cr, hC⟩
    · left
      rw [Reconcile_absent_absent env l r w hD hC]
      exact ⟨rfl, rfl, rfl⟩
    · rcases Option.eq_none_or_eq_some cr.IsDefault with hF | ⟨b, hF⟩
      · left
        rw [Reconcile_absent_nilflag env l r w cr hD hC hF]
        exact ⟨rfl, rfl, rfl⟩
      · cases b with
        | true =>
          left
          rw [Reconcile_absent_default env l r w cr hD hC hF]
          exact ⟨rfl, rfl, rfl⟩
        | false =>
          right; right; left
          refine ⟨cr, hD, hC, hF, ?_⟩
          cases hresp : env.DeleteRule w.calls ⟨cr.RuleArn⟩ with
          | ok u =>
            rw [Reconcile_delete_ok env l r w cr u hD hC hF hresp]
            cases cr.Priority <;> exact ⟨rfl, rfl, Or.inl ⟨u, rfl, rfl⟩⟩
          | err e =>
            rw [Reconcile_delete_err env l r w cr e hD hC hF hresp]
            cases cr.Priority <;> exact ⟨rfl, rfl, Or.inr ⟨e, rfl, rfl⟩⟩
  · rcases Option.eq_none_or_eq_some dr.IsDefault with hF | ⟨b, hF⟩
    · left
      rw [Reconcile_desired_nilflag env l r w dr hD hF]
      exact ⟨rfl, rfl, rfl⟩
    · cases b with
      | true =>
        right; left
        exact ⟨dr, hD, hF, Reconcile_adopt env l r w dr hD hF⟩
      | false =>
        rcases Option.eq_none_or_eq_some r.CurrentRule with hC | ⟨cr, hC⟩
        · right; right; right
          cases hA : assignTargetGroup env w.lb r.SvcName dr.Actions with
          | error acts =>
            left
            exact ⟨dr, acts, hD, hF, hC, hA,
              Reconcile_create_panic env l r w dr acts hD hF hC hA⟩
          | ok acts =>
            right
            cases hresp : env.CreateRule w.calls
              ⟨acts, dr.Conditions, l.CurrentListener.ListenerArn, w.lb.LastRulePriority⟩ with
            | err e =>
              left
              refine ⟨dr, acts, hD, hF, hC, hA, ?_⟩
              rw [hresp, Reconcile_create_err env l r w dr acts e hD hF hC hA hresp]
              exact ⟨rfl, rfl, rfl, Or.inl ⟨e, rfl, rfl⟩⟩
            | ok o =>
              cases ho : o.Rules with
              | nil =>
                left
                refine ⟨dr, acts, hD, hF, hC, hA, ?_⟩
                rw [hresp, Reconcile_create_empty env l r w dr acts o hD hF hC hA hresp ho]
                exact ⟨rfl, rfl, rfl, Or.inr ⟨o, rfl, ho, rfl⟩⟩
              | cons created more =>
                right
                refine ⟨dr, acts, o, created, more, hD, hF, hC, hA, hresp, ho, ?_⟩
                rw [Reconcile_create_ok env l r w dr acts o created more hD hF hC hA hresp ho]
                cases hP : created.Priority with
                | none =>
                  refine ⟨rfl, rfl, rfl, ?_, ?_⟩
                  · simp
                  · intro e h
                    cases h
                | some p =>
                  refine ⟨rfl, rfl, rfl, ?_, ?_⟩
                  · simp
                  · intro e h
                    cases h
        · left
          rw [Reconcile_present_present env l r w dr cr hD hF hC]
          split
          · exact ⟨rfl, rfl, rfl⟩
          · cases cr.Priority <;> exact ⟨rfl, rfl, rfl⟩

/-! ### The claims C13 to C15 -/

/-- C13, as stated, fails: for the default rule built by `NewRule "/"`,
`Reconcile` writes `CurrentRule` (it was absent, it is the desired rule
afterwards) without any remote call. -/
theorem adopt_default_writes_current_locally :
    (NewRule "/" "svc-a").CurrentRule = none ∧
    ((NewRule "/" "svc-a").Reconcile remoteUp listenerOne worldTwo).r.CurrentRule ≠
      (NewRule "/" "svc-a").CurrentRule ∧
    ((NewRule "/" "svc-a").Reconcile remoteUp listenerOne worldTwo).r.CurrentRule =
      (NewRule "/" "svc-a").DesiredRule ∧
    issued worldTwo ((NewRule "/" "svc-a").Reconcile remoteUp listenerOne worldTwo).w = [] := by
  decide

/-- C13, amended: whenever `CurrentRule` after `Reconcile` differs from
`CurrentRule` before, either the desired rule is a default rule, no remote call
was made and the new `CurrentRule` is the desired rule (adopt-default), or
exactly one remote call was made, a `CreateRule` that succeeded, and the new
`CurrentRule` is the first rule of its output. -/
theorem CurrentRule_provenance (env : Env) (l : Listener) (r : Rule) (w : World)
    (hne : (r.Reconcile env l w).r.CurrentRule ≠ r.CurrentRule) :
    (∃ dr, r.DesiredRule = some dr ∧ dr.IsDefault = some true ∧
      (r.Reconcile env l w).r.CurrentRule = some dr ∧
      issued w (r.Reconcile env l w).w = []) ∨
    (∃ inp o created more,
      issued w (r.Reconcile env l w).w = [Call.createRule inp (Response.ok o)] ∧
      env.CreateRule w.calls inp = Response.ok o ∧
      o.Rules = created :: more ∧
      (r.Reconcile env l w).r.CurrentRule = some created) := by
  rcases Reconcile_effect env l r w with
    ⟨hr, -, -⟩ | ⟨dr, hD, hF, hs⟩ | ⟨cr, -, -, -, -, -, hr⟩ | ⟨dr, acts, -, -, -, -, hs⟩ |
    ⟨dr, acts, -, -, -, -, -, -, hr, -⟩ |
    ⟨dr, acts, o, created, more, -, -, -, -, hresp, ho, hcalls, -, hr, -, -⟩
  · exact absurd (by rw [hr]) hne
  · left
    refine ⟨dr, hD, hF, ?_, ?_⟩
    · rw [hs]
    · rw [hs]
      exact issued_of_eq _ _ rfl
  · exfalso
    apply hne
    rcases hr with ⟨u, -, hr⟩ | ⟨e, -, hr⟩ <;> rw [hr]
  · exact absurd (by rw [hs]) hne
  · exact absurd (by rw [hr]) hne
  · right
    exact ⟨_, o, created, more, issued_of_append _ _ _ hcalls, hresp, ho, by rw [hr]⟩

/-- Witness of C13, amended: the create of the rule for `/api`. -/
theorem CurrentRule_provenance_witness :
    (∃ dr, ruleApi.DesiredRule = some dr ∧ dr.IsDefault = some true ∧
      (ruleApi.Reconcile remoteUp listenerOne worldTwo).r.CurrentRule = some dr ∧
      issued worldTwo (ruleApi.Reconcile remoteUp listenerOne worldTwo).w = []) ∨
    (∃ inp o created more,
      issued worldTwo (ruleApi.Reconcile remoteUp listenerOne worldTwo).w =
        [Call.createRule inp (Response.ok o)] ∧
      remoteUp.CreateRule worldTwo.calls inp = Response.ok o ∧
      o.Rules = created :: more ∧
      (ruleApi.Reconcile remoteUp listenerOne worldTwo).r.CurrentRule = some created) :=
  CurrentRule_provenance remoteUp listenerOne ruleApi worldTwo (by decide)

/-- C14, as stated, fails: in the modify state (current rule for `/api`,
desired rule for `/v2`) `Reconcile` returns nil and makes no remote call. -/
theorem modify_makes_no_call :
    ruleChanged.CurrentRule = some awsRuleFive ∧
    ruleChanged.DesiredRule.bind ElbRule.IsDefault = some false ∧
    ruleChanged.needsModification = Except.ok true ∧
    (ruleChanged.Reconcile remoteUp listenerOne worldTwo).out = Outcome.ok ∧
    (issued worldTwo (ruleChanged.Reconcile remoteUp listenerOne worldTwo).w).length = 0 ∧
    (issued worldTwo (ruleChanged.Reconcile remoteUp listenerOne worldTwo).w).length ≠ 1 := by
  refine ⟨rfl, rfl, rfl, by decide, by decide, by decide⟩

/-- C14, amended: a `Reconcile` that returns nil has made exactly one remote
call when it took the delete transition (a `DeleteRule`) or the create
transition (a `CreateRule`); in the modify transition it makes no remote call
at all, whatever it returns. -/
theorem one_call_per_create_or_delete (env : Env) (l : Listener) (r : Rule) (w : World)
    (hok : (r.Reconcile env l w).out = Outcome.ok) :
    (r.DesiredRule = none → (∃ cr, r.CurrentRule = some cr ∧ cr.IsDefault = some false) →
      ∃ c, issued w (r.Reconcile env l w).w = [c] ∧ c.isDelete = true) ∧
    (r.inCreateState →
      ∃ c, issued w (r.Reconcile env l w).w = [c] ∧ c.isCreate = true) ∧
    (∀ cr dr, r.CurrentRule = some cr → r.DesiredRule = some dr →
      dr.IsDefault = some false → cr.Conditions ≠ dr.Conditions →
      issued w (r.Reconcile env l w).w = []) := by
  refine ⟨?_, ?_, ?_⟩
  · rintro hD ⟨cr, hC, hF⟩
    rcases Reconcile_calls_cases env l r w with
      ⟨-, hnd, -⟩ | ⟨cr2, hcalls, -, -, -⟩ | ⟨inp, -, ⟨dr, hD2, -⟩, -, -⟩
    · exact absurd ⟨hD, cr, hC, hF⟩ hnd
    · exact ⟨_, issued_of_append _ _ _ hcalls, rfl⟩
    · rw [hD] at hD2
      cases hD2
  · intro hS
    obtain ⟨inp, resp, hcalls, -, -⟩ := Reconcile_create_success env l r w hS hok
    exact ⟨_, issued_of_append _ _ _ hcalls, rfl⟩
  · intro cr dr hC hD hF hne
    apply issued_of_eq
    rw [Reconcile_present_present env l r w dr cr hD hF hC, if_neg hne]
    cases cr.Priority <;> rfl

/-- Witness of C14, amended: the delete of the rule with priority "5". -/
theorem one_call_per_create_or_delete_witness :
    ∃ c, issued worldTwo (ruleGone.Reconcile remoteUp listenerOne worldTwo).w = [c] ∧
      c.isDelete = true :=
  (one_call_per_create_or_delete remoteUp listenerOne ruleGone worldTwo (by decide)).1 rfl
    ⟨awsRuleFive, rfl, rfl⟩

/-- The writes of `assignTargetGroup` touch nothing but the `TargetGroupArn` of
the first action. -/
theorem assignTargetGroup_withoutFirstTarget (env : Env) (lb : LoadBalancer) (svc : String)
    (dr : ElbRule) (acts : List Action)
    (h : assignTargetGroup env lb svc dr.Actions = .ok acts) :
    ({ dr with Actions := acts } : ElbRule).withoutFirstTarget = dr.withoutFirstTarget := by
  obtain ⟨a, rest, tg, ha, hacts, -⟩ := assignTargetGroup_ok env lb svc dr.Actions acts h
  simp [ElbRule.withoutFirstTarget, ha, hacts, setFirstTargetGroupArn]

/-- C15, as stated, fails: the create of the rule for `/api` against a remote
API that rejects the call leaves the `TargetGroupArn` of the first action of
`DesiredRule` changed, from nil to the ARN of the target group of `svc-a`. -/
theorem failed_create_keeps_target_write :
    (∃ c ∈ issued worldTwo (ruleApi.Reconcile remoteDown listenerOne worldTwo).w,
      c.failure = some ⟨"ServiceUnavailable"⟩) ∧
    (ruleApi.Reconcile remoteDown listenerOne worldTwo).out =
      Outcome.error ⟨"ServiceUnavailable"⟩ ∧
    (ruleApi.DesiredRule.map ElbRule.Actions) = some [⟨none, some "forward"⟩] ∧
    ((ruleApi.Reconcile remoteDown listenerOne worldTwo).r.DesiredRule.map ElbRule.Actions) =
      some [⟨some "tg1", some "forward"⟩] ∧
    (ruleApi.Reconcile remoteDown listenerOne worldTwo).r.DesiredRule ≠ ruleApi.DesiredRule := by
  refine ⟨by decide, by decide, by decide, by decide, by decide⟩

/-- C15, amended: when the remote call made by `Reconcile` fails, `SvcName`,
`CurrentRule`, `deleted`, the load balancer (so `LastRulePriority`) and every
field of `DesiredRule` other than the `TargetGroupArn` of its first action
are what they were before; a failed `DeleteRule` leaves the whole rule
unchanged, and after a failed `CreateRule` the actions of `DesiredRule` are
those sent in the call, with the first action pointing at the resolved target
group. -/
theorem failure_leaves_all_but_first_target (env : Env) (l : Listener) (r : Rule) (w : World)
    (c : Call) (e : Err)
    (hc : c ∈ issued w (r.Reconcile env l w).w) (he : c.failure = some e) :
    (r.Reconcile env l w).r.SvcName = r.SvcName ∧
    (r.Reconcile env l w).r.CurrentRule = r.CurrentRule ∧
    (r.Reconcile env l w).r.deleted = r.deleted ∧
    (r.Reconcile env l w).w.lb = w.lb ∧
    (r.Reconcile env l w).r.DesiredRule.map ElbRule.withoutFirstTarget =
      r.DesiredRule.map ElbRule.withoutFirstTarget ∧
    (c.isDelete = true → (r.Reconcile env l w).r = r) ∧
    (∀ inp resp, c = Call.createRule inp resp →
      (r.Reconcile env l w).r.DesiredRule.map ElbRule.Actions = some inp.Actions ∧
      ∃ dr, r.DesiredRule = some dr ∧
        assignTargetGroup env w.lb r.SvcName dr.Actions = .ok inp.Actions) := by
  rcases Reconcile_effect env l r w with
    ⟨-, hcalls, -⟩ | ⟨dr, -, -, hs⟩ | ⟨cr, -, -, -, hcalls, hlb, hr⟩ | ⟨dr, acts, -, -, -, -, hs⟩ |
    ⟨dr, acts, hD, -, -, hA, hcalls, hlb, hr, hresp⟩ |
    ⟨dr, acts, o, created, more, -, -, -, -, -, -, hcalls, -, -, -, -⟩
  · rw [issued_of_eq _ _ hcalls] at hc
    cases hc
  · rw [hs, issued_of_eq _ _ rfl] at hc
    cases hc
  · rw [issued_of_append _ _ _ hcalls, List.mem_singleton] at hc
    subst hc
    rcases hr with ⟨u, hu, -⟩ | ⟨e1, -, hr⟩
    · rw [hu] at he
      cases he
    · rw [hr]
      refine ⟨rfl, rfl, rfl, hlb, rfl, fun _ => rfl, ?_⟩
      intro inp resp h
      cases h
  · rw [hs, issued_of_eq _ _ rfl] at hc
    cases hc
  · rw [issued_of_append _ _ _ hcalls, List.mem_singleton] at hc
    subst hc
    rw [hr]
    refine ⟨rfl, rfl, rfl, hlb, ?_, ?_, ?_⟩
    · simp only [hD, Option.map_some']
      rw [assignTargetGroup_withoutFirstTarget env w.lb r.SvcName dr acts hA]
    · intro h
      cases h
    · intro inp resp h
      injection h with h1 h2
      subst h1
      exact ⟨rfl, dr, hD, hA⟩
  · rw [issued_of_append _ _ _ hcalls, List.mem_singleton] at hc
    subst hc
    cases he

/-- Witness of C15, amended: the failed create of the rule for `/api`. -/
theorem failure_leaves_all_but_first_target_witness :
    (ruleApi.Reconcile remoteDown listenerOne worldTwo).r.CurrentRule = ruleApi.CurrentRule ∧
    (ruleApi.Reconcile remoteDown listenerOne worldTwo).w.lb = worldTwo.lb ∧
    (ruleApi.Reconcile remoteDown listenerOne worldTwo).r.DesiredRule.map
        ElbRule.withoutFirstTarget =
      ruleApi.DesiredRule.map ElbRule.withoutFirstTarget :=
  have h := failure_leaves_all_but_first_target remoteDown listenerOne ruleApi worldTwo
    (Call.createRule
      ⟨[⟨some "tg1", some "forward"⟩], [⟨some "path-pattern", [some "/api"]⟩],
        some "arn:listener/1", 10⟩
      (Response.err ⟨"ServiceUnavailable"⟩))
    ⟨"ServiceUnavailable"⟩ (by decide) rfl
  ⟨h.2.1, h.2.2.2.1, h.2.2.2.2.1⟩

/-! ### The claims C18 and C20 -/

/-- In the modify state a run of `Reconcile` leaves the rule, the trace and the
load balancer as they were. -/
theorem Reconcile_modify_state (env : Env) (l : Listener) (r : Rule) (w : World)
    (cr dr : ElbRule) (hC : r.CurrentRule = some cr) (hD : r.DesiredRule = some dr)
    (hF : dr.IsDefault = some false) (hne : cr.Conditions ≠ dr.Conditions) :
    (r.Reconcile env l w).r = r ∧ (r.Reconcile env l w).w.calls = w.calls ∧
    (r.Reconcile env l w).w.lb = w.lb ∧
    (∀ e, (r.Reconcile env l w).out ≠ Outcome.error e) ∧
    (cr.Priority ≠ none → (r.Reconcile env l w).out = Outcome.ok) := by
  rw [Reconcile_present_present env l r w dr cr hD hF hC, if_neg hne]
  cases hP : cr.Priority with
  | none => exact ⟨rfl, rfl, rfl, (fun e h => by cases h), fun h => absurd rfl h⟩
  | some p => exact ⟨rfl, rfl, rfl, (fun e h => by cases h), fun _ => rfl⟩

/-- C18: with `CurrentRule` present, `DesiredRule` present and not default, and
conditions that differ, `needsModification` is true and `Reconcile` makes no
remote call, returns no error (nil when `CurrentRule.Priority` is set, which
the MODIFY event dereferences), and leaves the whole rule (`CurrentRule`,
`DesiredRule`, `deleted`) and the load balancer (`LastRulePriority`) as they
were; so `needsModification` is still true afterwards, and after any number of
further `Reconcile` calls the rule is the same and its conditions still
differ. -/
theorem modify_is_noop (env : Env) (l : Listener) (r : Rule) (w : World)
    (cr dr : ElbRule) (hC : r.CurrentRule = some cr) (hD : r.DesiredRule = some dr)
    (hF : dr.IsDefault = some false) (hne : cr.Conditions ≠ dr.Conditions) :
    r.needsModification = Except.ok true ∧
    issued w (r.Reconcile env l w).w = [] ∧
    (∀ e, (r.Reconcile env l w).out ≠ Outcome.error e) ∧
    (cr.Priority ≠ none → (r.Reconcile env l w).out = Outcome.ok) ∧
    (r.Reconcile env l w).r = r ∧
    (r.Reconcile env l w).w.lb.LastRulePriority = w.lb.LastRulePriority ∧
    (r.Reconcile env l w).r.needsModification = Except.ok true ∧
    (∀ n : Nat,
      (ReconcileTimes env l n r w).1 = r ∧
      (ReconcileTimes env l n r w).2.calls = w.calls ∧
      (ReconcileTimes env l n r w).2.lb = w.lb ∧
      ∀ c d, (ReconcileTimes env l n r w).1.CurrentRule = some c →
        (ReconcileTimes env l n r w).1.DesiredRule = some d → c.Conditions ≠ d.Conditions) := by
  have hneeds : r.needsModification = Except.ok true := by
    have hb : (cr.Conditions != dr.Conditions) = true := by simpa using hne
    simp only [Rule.needsModification, hC, hD, prettifyDiffers, hb, if_true]
  obtain ⟨hr, hcalls, hlb, herr, hout⟩ := Reconcile_modify_state env l r w cr dr hC hD hF hne
  refine ⟨hneeds, issued_of_eq _ _ hcalls, herr, hout, hr, by rw [hlb], by rw [hr]; exact hneeds,
    ?_⟩
  have hrep : ∀ (n : Nat) (w0 : World),
      (ReconcileTimes env l n r w0).1 = r ∧
      (ReconcileTimes env l n r w0).2.calls = w0.calls ∧
      (ReconcileTimes env l n r w0).2.lb = w0.lb := by
    intro n
    induction n with
    | zero =>
      intro w0
      exact ⟨rfl, rfl, rfl⟩
    | succ k ih =>
      intro w0
      obtain ⟨hr0, hcalls0, hlb0, -, -⟩ := Reconcile_modify_state env l r w0 cr dr hC hD hF hne
      simp only [ReconcileTimes, hr0]
      obtain ⟨h1, h2, h3⟩ := ih (r.Reconcile env l w0).w
      exact ⟨h1, h2.trans hcalls0, h3.trans hlb0⟩
  intro n
  obtain ⟨h1, h2, h3⟩ := hrep n w
  refine ⟨h1, h2, h3, ?_⟩
  intro c d hc hd
  rw [h1, hC] at hc
  rw [h1, hD] at hd
  cases hc
  cases hd
  exact hne

/-- Witness of C18: current rule for `/api`, desired rule for `/v2`, reconciled
three times. -/
theorem modify_is_noop_witness :
    issued worldTwo (ruleChanged.Reconcile remoteUp listenerOne worldTwo).w = [] ∧
    (ruleChanged.Reconcile remoteUp listenerOne worldTwo).out = Outcome.ok ∧
    (ReconcileTimes remoteUp listenerOne 3 ruleChanged worldTwo).1 = ruleChanged ∧
    (ReconcileTimes remoteUp listenerOne 3 ruleChanged worldTwo).2.calls = [] :=
  have h := modify_is_noop remoteUp listenerOne ruleChanged worldTwo awsRuleFive
    ⟨[⟨none, some "forward"⟩], [⟨some "path-pattern", [some "/v2"]⟩], some false, none, none⟩
    rfl (by decide) rfl (by decide)
  ⟨h.2.1, h.2.2.2.1 (by decide), (h.2.2.2.2.2.2.2 3).1, (h.2.2.2.2.2.2.2 3).2.1⟩

/-- The desired rule built by `NewRule`: one action, and `IsDefault` set. -/
theorem NewRule_shape (path svc : String) :
    (NewRule path svc).SvcName = svc ∧ (NewRule path svc).CurrentRule = none ∧
    (NewRule path svc).deleted = false ∧
    ∃ dr, (NewRule path svc).DesiredRule = some dr ∧
      dr.Actions = [⟨none, some "forward"⟩] ∧ dr.RuleArn = none ∧
      (dr.IsDefault = some true ∨ dr.IsDefault = some false) ∧
      (dr.IsDefault = some true → dr.Priority = some "default" ∧ dr.Conditions = []) ∧
      (dr.IsDefault = some false →
        dr.Conditions = [⟨some "path-pattern", [some path]⟩]) := by
  refine ⟨rfl, rfl, rfl, ?_⟩
  by_cases h : path = "/" ∨ path = ""
  · refine ⟨⟨[⟨none, some "forward"⟩], [], some true, some "default", none⟩,
      by simp only [NewRule, h, if_true], rfl, rfl, Or.inl rfl, fun _ => ⟨rfl, rfl⟩, ?_⟩
    intro hc
    cases hc
  · refine ⟨⟨[⟨none, some "forward"⟩], [⟨some "path-pattern", [some path]⟩], some false,
      none, none⟩, by simp only [NewRule, h, if_false], rfl, rfl, Or.inr rfl, ?_, fun _ => rfl⟩
    intro hc
    cases hc

/-- C20: for a rule built by `NewRule` whose `CurrentRule` is absent or has its
`IsDefault` and `Priority` set, on a load balancer with at least one target
group for which `LookupBySvc` answers an index below the number of target
groups (negative included), and a remote API whose successful `CreateRule`
answers carry a first rule with its `Priority` set, `Reconcile` never panics:
it returns nil or an error. -/
theorem Reconcile_no_panic (env : Env) (l : Listener) (w : World) (path svc : String)
    (c : Option ElbRule) (d : Bool)
    (hc : ∀ cr, c = some cr → cr.IsDefault ≠ none ∧ cr.Priority ≠ none)
    (hTG : w.lb.TargetGroups ≠ [])
    (hL : env.LookupBySvc w.lb.TargetGroups svc < w.lb.TargetGroups.length)
    (hR : ∀ inp o, env.CreateRule w.calls inp = Response.ok o →
      ∃ created more p, o.Rules = created :: more ∧ created.Priority = some p) :
    (∀ f, (({ NewRule path svc with CurrentRule := c, deleted := d } : Rule).Reconcile
        env l w).out ≠ Outcome.panic f) ∧
    ((({ NewRule path svc with CurrentRule := c, deleted := d } : Rule).Reconcile
        env l w).out = Outcome.ok ∨
     ∃ e, (({ NewRule path svc with CurrentRule := c, deleted := d } : Rule).Reconcile
        env l w).out = Outcome.error e) := by
  have key : (({ NewRule path svc with CurrentRule := c, deleted := d } : Rule).Reconcile
        env l w).out = Outcome.ok ∨
     ∃ e, (({ NewRule path svc with CurrentRule := c, deleted := d } : Rule).Reconcile
        env l w).out = Outcome.error e := by
    obtain ⟨-, -, -, dr, hD, hacts, -, hiff, -, -⟩ := NewRule_shape path svc
    have hD2 : ({ NewRule path svc with CurrentRule := c, deleted := d } : Rule).DesiredRule =
        some dr := hD
    have hC2 : ({ NewRule path svc with CurrentRule := c, deleted := d } : Rule).CurrentRule =
        c := rfl
    rcases hiff with hF | hF
    · rw [Reconcile_adopt env l _ w dr hD2 hF]
      exact Or.inl rfl
    · cases c with
      | some cr =>
        rw [Reconcile_present_present env l _ w dr cr hD2 hF hC2]
        split
        · exact Or.inl rfl
        · obtain ⟨p, hp⟩ := Option.ne_none_iff_exists'.mp (hc cr rfl).2
          rw [hp]
          exact Or.inl rfl
      | none =>
        have hready : ∃ acts, assignTargetGroup env w.lb svc dr.Actions = .ok acts := by
          rw [assignTargetGroup_ok_iff]
          exact ⟨hTG, by simp [hacts], hL⟩
        obtain ⟨acts, hA⟩ := hready
        have hA2 : assignTargetGroup env w.lb
            ({ NewRule path svc with CurrentRule := none, deleted := d } : Rule).SvcName
            dr.Actions = .ok acts := hA
        cases hresp : env.CreateRule w.calls
          ⟨acts, dr.Conditions, l.CurrentListener.ListenerArn, w.lb.LastRulePriority⟩ with
        | err e =>
          rw [Reconcile_create_err env l _ w dr acts e hD2 hF hC2 hA2 hresp]
          exact Or.inr ⟨e, rfl⟩
        | ok o =>
          obtain ⟨created, more, p, ho, hp⟩ := hR _ o hresp
          rw [Reconcile_create_ok env l _ w dr acts o created more hD2 hF hC2 hA2 hresp ho, hp]
          exact Or.inl rfl
  refine ⟨?_, key⟩
  intro f hf
  rcases key with h | ⟨e, h⟩ <;> rw [h] at hf <;> cases hf

/-- Witness of C20: the rule for `/api` on `lbTwo`, nothing created yet. -/
theorem Reconcile_no_panic_witness :
    (∀ f, (({ NewRule "/api" "svc-a" with CurrentRule := none, deleted := false } : Rule).Reconcile
        remoteUp listenerOne worldTwo).out ≠ Outcome.panic f) ∧
    (({ NewRule "/api" "svc-a" with CurrentRule := none, deleted := false } : Rule).Reconcile
        remoteUp listenerOne worldTwo).out = Outcome.ok :=
  ⟨(Reconcile_no_panic remoteUp listenerOne worldTwo "/api" "svc-a" none false
      (fun cr h => by cases h) (by decide) (by decide)
      (fun inp o h => by
        injection h with h
        subst h
        exact ⟨_, _, "assigned", rfl, rfl⟩)).1,
   by decide⟩

/-! ### The allocator along a sequence of reconciliations -/

theorem successfulCreatePriorities_append (xs ys : List Call) :
    successfulCreatePriorities (xs ++ ys) =
      successfulCreatePriorities xs ++ successfulCreatePriorities ys := by
  simp [successfulCreatePriorities]

/-- One run of `Reconcile` and the allocator: either the load balancer is
untouched and the run contains no successful create; or exactly one call was
made, a successful create carrying the allocator value of before the call, and
the allocator advanced by one (in `int64`). -/
theorem Reconcile_allocator_step (env : Env) (l : Listener) (r : Rule) (w : World) :
    ((r.Reconcile env l w).w.lb = w.lb ∧
      ∃ new, (r.Reconcile env l w).w.calls = w.calls ++ new ∧
        successfulCreatePriorities new = []) ∨
    (∃ inp o, (r.Reconcile env l w).w.calls =
        w.calls ++ [Call.createRule inp (Response.ok o)] ∧
      o.Rules ≠ [] ∧
      inp.Priority = w.lb.LastRulePriority ∧
      (r.Reconcile env l w).w.lb.LastRulePriority = wrap64 (w.lb.LastRulePriority + 1)) := by
  rcases Reconcile_effect env l r w with
    ⟨-, hcalls, hlb⟩ | ⟨dr, -, -, hs⟩ | ⟨cr, -, -, -, hcalls, hlb, -⟩ | ⟨dr, acts, -, -, -, -, hs⟩ |
    ⟨dr, acts, -, -, -, -, hcalls, hlb, -, hresp⟩ |
    ⟨dr, acts, o, created, more, -, -, -, -, -, ho, hcalls, hlb, -, -, -⟩
  · exact Or.inl ⟨hlb, [], by simp [hcalls], rfl⟩
  · rw [hs]
    exact Or.inl ⟨rfl, [], by simp, rfl⟩
  · exact Or.inl ⟨hlb, _, hcalls, rfl⟩
  · rw [hs]
    exact Or.inl ⟨rfl, [], by simp, rfl⟩
  · refine Or.inl ⟨hlb, _, hcalls, ?_⟩
    rcases hresp with ⟨e, he, -⟩ | ⟨o, ho, hempty, -⟩
    · rw [he]
      rfl
    · rw [ho]
      simp [successfulCreatePriorities, Call.successfulCreate, hempty]
  · right
    refine ⟨_, o, hcalls, by simp [ho], rfl, ?_⟩
    rw [hlb]

/-- The allocator and the priorities of the successful creates along a
sequence of reconciliations, by induction on the sequence. -/
theorem ReconcileTrace_allocator (env : Env) (l : Listener) (rs : List Rule) :
    ∀ w : World, -2 ^ 63 ≤ w.lb.LastRulePriority →
      w.lb.LastRulePriority + rs.length < 2 ^ 63 →
      ∃ new, (worldAfter env l rs w).calls = w.calls ++ new ∧
        w.lb.LastRulePriority ≤ (worldAfter env l rs w).lb.LastRulePriority ∧
        (worldAfter env l rs w).lb.LastRulePriority ≤ w.lb.LastRulePriority + rs.length ∧
        (∀ p ∈ ReconcileTrace env l rs w, allocatorStep p.1 p.2) ∧
        List.Pairwise (fun a b => a < b) (successfulCreatePriorities new) ∧
        ∀ q ∈ successfulCreatePriorities new,
          w.lb.LastRulePriority ≤ q ∧ q < (worldAfter env l rs w).lb.LastRulePriority := by
  induction rs with
  | nil =>
    intro w _ _
    refine ⟨[], by simp [worldAfter], by simp [worldAfter], by simp [worldAfter], ?_, ?_, ?_⟩
    · intro p hp
      simp [ReconcileTrace] at hp
    · simp [successfulCreatePriorities]
    · simp [successfulCreatePriorities]
  | cons r rs ih =>
    intro w hlo hhi
    have hlen : (0 : Int) ≤ rs.length := Int.ofNat_nonneg _
    have hhi2 : w.lb.LastRulePriority + ((rs.length : Int) + 1) < 2 ^ 63 := by
      simpa using hhi
    rcases Reconcile_allocator_step env l r w with
      ⟨hlb, new1, hcalls, hacc⟩ | ⟨inp, o, hcalls, hrules, hprio, hnext⟩
    · have hP : (r.Reconcile env l w).w.lb.LastRulePriority = w.lb.LastRulePriority := by
        rw [hlb]
      obtain ⟨new2, hnew, hge, hle, hsteps, hpair, hbounds⟩ :=
        ih (r.Reconcile env l w).w (by rw [hP]; exact hlo) (by rw [hP]; omega)
      rw [hP] at hge hle hbounds
      refine ⟨new1 ++ new2, ?_, ?_, ?_, ?_, ?_, ?_⟩
      · simp [worldAfter, hnew, hcalls]
      · simpa [worldAfter] using hge
      · simp only [worldAfter, List.length_cons]
        push_cast
        omega
      · intro p hp
        simp only [ReconcileTrace, List.mem_cons] at hp
        rcases hp with rfl | hp
        · exact Or.inl hP
        · exact hsteps p hp
      · simpa [successfulCreatePriorities_append, hacc] using hpair
      · simpa [successfulCreatePriorities_append, hacc, worldAfter] using hbounds
    · have hw : wrap64 (w.lb.LastRulePriority + 1) = w.lb.LastRulePriority + 1 := by
        apply wrap64_of_range <;> omega
      rw [hw] at hnext
      obtain ⟨new2, hnew, hge, hle, hsteps, hpair, hbounds⟩ :=
        ih (r.Reconcile env l w).w (by rw [hnext]; omega) (by rw [hnext]; omega)
      rw [hnext] at hge hle hbounds
      have hhead : successfulCreatePriorities (Call.createRule inp (Response.ok o) :: new2) =
          w.lb.LastRulePriority :: successfulCreatePriorities new2 := by
        simp [successfulCreatePriorities, Call.successfulCreate, hrules, hprio]
      refine ⟨Call.createRule inp (Response.ok o) :: new2, ?_, ?_, ?_, ?_, ?_, ?_⟩
      · simp [worldAfter, hnew, hcalls]
      · simp only [worldAfter]
        omega
      · simp only [worldAfter, List.length_cons]
        push_cast
        omega
      · intro p hp
        simp only [ReconcileTrace, List.mem_cons] at hp
        rcases hp with rfl | hp
        · exact Or.inr ⟨hnext, inp, o, issued_of_append _ _ _ hcalls, hrules, hprio⟩
        · exact hsteps p hp
      · rw [hhead, List.pairwise_cons]
        refine ⟨?_, hpair⟩
        intro q hq
        have := (hbounds q hq).1
        omega
      · rw [hhead]
        intro q hq
        simp only [worldAfter]
        rcases List.mem_cons.mp hq with rfl | hq
        · constructor <;> omega
        · have := hbounds q hq
          constructor <;> omega

/-- C12, as stated, fails: with the allocator at the largest `int64`, a
successful create wraps it to the smallest one, so `LastRulePriority`
decreases. -/
theorem allocator_wraps_at_max :
    worldAtMax.lb.LastRulePriority = 2 ^ 63 - 1 ∧
    ruleApi.inCreateState ∧
    (ruleApi.Reconcile remoteUp listenerOne worldAtMax).out = Outcome.ok ∧
    (ruleApi.Reconcile remoteUp listenerOne worldAtMax).w.lb.LastRulePriority = -2 ^ 63 ∧
    (ruleApi.Reconcile remoteUp listenerOne worldAtMax).w.lb.LastRulePriority <
      worldAtMax.lb.LastRulePriority := by
  decide

/-- C12, amended: along any finite sequence of `Reconcile` calls against one
load balancer, whatever the remote API answers, provided the allocator stays
inside `int64` (start P, N calls, `P + N < 2^63`): every call either leaves
`LastRulePriority` as it is or advances it by exactly one, and it advances it
only in a call whose single remote call is a successful create carrying the
old value; so the allocator never decreases; and the priorities sent in the
successful creates are strictly increasing in call order, hence pairwise
distinct. -/
theorem allocator_monotone (env : Env) (l : Listener) (rs : List Rule) (w : World)
    (hlo : -2 ^ 63 ≤ w.lb.LastRulePriority)
    (hhi : w.lb.LastRulePriority + rs.length < 2 ^ 63) :
    (∀ p ∈ ReconcileTrace env l rs w, allocatorStep p.1 p.2) ∧
    (∀ p ∈ ReconcileTrace env l rs w,
      p.1.lb.LastRulePriority ≤ p.2.w.lb.LastRulePriority) ∧
    w.lb.LastRulePriority ≤ (worldAfter env l rs w).lb.LastRulePriority ∧
    List.Pairwise (fun a b => a < b)
      (successfulCreatePriorities (issued w (worldAfter env l rs w))) ∧
    (successfulCreatePriorities (issued w (worldAfter env l rs w))).Nodup := by
  obtain ⟨new, hnew, hge, -, hsteps, hpair, -⟩ := ReconcileTrace_allocator env l rs w hlo hhi
  refine ⟨hsteps, ?_, hge, ?_, ?_⟩
  · intro p hp
    rcases hsteps p hp with h | ⟨h, -⟩ <;> omega
  · rw [issued_of_append _ _ _ hnew]
    exact hpair
  · rw [issued_of_append _ _ _ hnew]
    exact hpair.imp (fun h => ne_of_lt h)

/-- Witness of C12, amended: a create that the remote API rejects, the same
create again, accepted, and a third one: the allocator goes 10, 10, 11, 12 and
the priorities of the successful creates are 10 and 11. -/
theorem allocator_monotone_witness :
    (ReconcileTrace remoteFlaky listenerOne [ruleApi, ruleApi, ruleImg] worldTwo).map
        (fun p => (p.1.lb.LastRulePriority, p.2.w.lb.LastRulePriority)) =
      [(10, 10), (10, 11), (11, 12)] ∧
    List.Pairwise (fun a b => a < b)
      (successfulCreatePriorities (issued worldTwo
        (worldAfter remoteFlaky listenerOne [ruleApi, ruleApi, ruleImg] worldTwo))) ∧
    successfulCreatePriorities (issued worldTwo
        (worldAfter remoteFlaky listenerOne [ruleApi, ruleApi, ruleImg] worldTwo)) =
      [10, 11] :=
  have h := allocator_monotone remoteFlaky listenerOne [ruleApi, ruleApi, ruleImg] worldTwo
    (by decide) (by decide)
  ⟨by decide, h.2.2.2.1, by decide⟩

/-! ### The claim C17 -/

theorem APICache_Get_Set (c : APICache) (key : String) (value : Option String) (ttl : Int) :
    (c.Set key value ttl).Get key = some ⟨value, ttl⟩ := by
  simp [APICache.Get, APICache.Set, List.lookup]

/-- C17: for a subnet list with first id `first`, and `key` the string
`first ++ "-vpc"`: when the cache holds an entry under `key`, `GetVPCID`
returns its value, makes no remote call and leaves the cache as it is; when it
holds none, `GetVPCID` makes exactly one `DescribeSubnets` call, for the whole
list, and then: if the call answers with at least one subnet, it returns the
`VpcId` of the first one and stores it under `key` with an expiry of 60
minutes; if the call fails, it returns that error and the cache is as before;
if the call answers with no subnet, it returns an error and the cache is as
before. -/
theorem GetVPCID_read_through (env : Ec2Env) (w : Ec2World) (first : String)
    (rest : List (Option String)) :
    (∀ item, w.cache.Get (first ++ "-vpc") = some item →
      (EC2.GetVPCID env (some first :: rest) w).out = VpcOutcome.ok item.value ∧
      (EC2.GetVPCID env (some first :: rest) w).w.calls = w.calls ∧
      (EC2.GetVPCID env (some first :: rest) w).w.cache = w.cache ∧
      (EC2.GetVPCID env (some first :: rest) w).w.metrics =
        w.metrics ++ [CacheMetric.mk "vpc" "hit"]) ∧
    (w.cache.Get (first ++ "-vpc") = none →
      (EC2.GetVPCID env (some first :: rest) w).w.calls =
        w.calls ++ [Ec2Call.mk ⟨some first :: rest⟩
          (env.DescribeSubnets w.calls ⟨some first :: rest⟩)] ∧
      (∀ info s more, env.DescribeSubnets w.calls ⟨some first :: rest⟩ = Response.ok info →
        info.Subnets = s :: more →
        (EC2.GetVPCID env (some first :: rest) w).out = VpcOutcome.ok s.VpcId ∧
        (EC2.GetVPCID env (some first :: rest) w).w.cache =
          w.cache.Set (first ++ "-vpc") s.VpcId (60 * minute) ∧
        (EC2.GetVPCID env (some first :: rest) w).w.cache.Get (first ++ "-vpc") =
          some ⟨s.VpcId, 60 * minute⟩ ∧
        (EC2.GetVPCID env (some first :: rest) w).w.metrics =
          w.metrics ++ [CacheMetric.mk "vpc" "miss"]) ∧
      (∀ e, env.DescribeSubnets w.calls ⟨some first :: rest⟩ = Response.err e →
        (EC2.GetVPCID env (some first :: rest) w).out = VpcOutcome.error e ∧
        (EC2.GetVPCID env (some first :: rest) w).w.cache = w.cache) ∧
      (∀ info, env.DescribeSubnets w.calls ⟨some first :: rest⟩ = Response.ok info →
        info.Subnets = [] →
        (EC2.GetVPCID env (some first :: rest) w).out =
          VpcOutcome.error ⟨"DescribeSubnets returned no subnets"⟩ ∧
        (EC2.GetVPCID env (some first :: rest) w).w.cache = w.cache)) := by
  constructor
  · intro item hget
    simp [EC2.GetVPCID, hget]
  · intro hget
    refine ⟨?_, ?_, ?_, ?_⟩
    · cases hresp : env.DescribeSubnets w.calls ⟨some first :: rest⟩ with
      | err e => simp [EC2.GetVPCID, hget, hresp]
      | ok info =>
        cases hs : info.Subnets with
        | nil => simp [EC2.GetVPCID, hget, hresp, hs]
        | cons s more => simp [EC2.GetVPCID, hget, hresp, hs]
    · intro info s more hresp hs
      have hm : minute * 60 = 60 * minute := by ring
      simp only [EC2.GetVPCID, hget, hresp, hs, hm]
      exact ⟨trivial, trivial, APICache_Get_Set _ _ _ _, trivial⟩
    · intro e hresp
      simp [EC2.GetVPCID, hget, hresp]
    · intro info hresp hs
      simp [EC2.GetVPCID, hget, hresp, hs]

/-- A miss followed by a hit, evaluated: the first `GetVPCID` asks the remote
API and stores `vpc-1` under `subnet-a-vpc` for 60 minutes; the second one
answers from the cache without a second remote call. -/
theorem GetVPCID_miss_then_hit :
    (EC2.GetVPCID ec2Up [some "subnet-a", some "subnet-b"] ec2Fresh).out =
      VpcOutcome.ok (some "vpc-1") ∧
    (EC2.GetVPCID ec2Up [some "subnet-a", some "subnet-b"] ec2Fresh).w.cache.Get
        "subnet-a-vpc" = some ⟨some "vpc-1", 3600000000000⟩ ∧
    (EC2.GetVPCID ec2Up [some "subnet-a", some "subnet-b"]
        (EC2.GetVPCID ec2Up [some "subnet-a", some "subnet-b"] ec2Fresh).w).out =
      VpcOutcome.ok (some "vpc-1") ∧
    (EC2.GetVPCID ec2Up [some "subnet-a", some "subnet-b"]
        (EC2.GetVPCID ec2Up [some "subnet-a", some "subnet-b"] ec2Fresh).w).w.calls.length = 1 ∧
    (EC2.GetVPCID ec2Up [some "subnet-a", some "subnet-b"]
        (EC2.GetVPCID ec2Up [some "subnet-a", some "subnet-b"] ec2Fresh).w).w.metrics =
      [CacheMetric.mk "vpc" "miss", CacheMetric.mk "vpc" "hit"] := by
  decide

end Alb
